import Mathlib

/-!
Verification development for the Instagram repost bot repository
(two source files: bot.py and repost_bot.py).

The development shallowly embeds the message-scanning / deduplication /
rate-limited-repost pipeline of both scripts:

* bot.py: NuclearInstagramBot.process_dms_nuclear together with the
  REEL_REGEX text search, the per-message candidate branches, the
  per-thread exception boundary, the thread/message hard caps, and the
  final save of the processed set.
* repost_bot.py: InstagramRepostBot.find_reels_in_messages (including
  extract_media_id_from_clip and extract_shortcode_from_url), the
  timestamp sort, and InstagramRepostBot.run with its per-reel
  download/upload loop, delays, marking, quota and state persistence.

Network collaborators (brutal_repost download/upload, media_info,
media_info_by_shortcode, download_media backends, clip_upload) are
modelled as oracle function parameters: the scripts treat them as
opaque succeed/fail calls.  Runs additionally produce a trace of
observable events (repost attempts, successes, processed-set marks,
randomized sleeps with their configured bounds, and state saves) so
that ordering and cadence properties can be stated.
-/

/-- Python truthiness of an optional string field: a missing key (none)
and an empty string are falsy, any other string is truthy.  Used for
checks such as `if not thread_id`, `if media_share.get("code")`. -/
def pyTruthyOpt (o : Option String) : Bool := o.getD "" != ""

/-- Insert a message identifier into the processed set, modelled as a
duplicate-free list: `set.add` is a no-op on an already present id. -/
def insertId (l : List String) (x : String) : List String :=
  if x ∈ l then l else x :: l

/-- Character class `[A-Za-z0-9_-]` used by the URL patterns of both
scripts. -/
def isSlugChar (c : Char) : Bool :=
  c.isAlpha || c.isDigit || c = '_' || c = '-'

/-- Match a literal character sequence at the head of the input,
returning the remaining input on success. -/
def matchLit : List Char → List Char → Option (List Char)
  | [], s => some s
  | _ :: _, [] => none
  | p :: ps, c :: cs => if p = c then matchLit ps cs else none

/-- Does `needle` occur as a contiguous run anywhere in `hay`?  Models
the Python `in` test on strings. -/
def hasSub (needle : List Char) : List Char → Bool
  | [] => needle.isEmpty
  | c :: cs => (matchLit needle (c :: cs)).isSome || hasSub needle cs

/-- Core of bot.py REEL_REGEX after the scheme: matches
`instagram.com/` then `reel/` or `p/` then one or more slug characters
then an optional trailing slash, returning the rest of the input. -/
def matchCore (s : List Char) : Option (List Char) :=
  match matchLit ("instagram.com/").toList s with
  | none => none
  | some s1 =>
    let afterAlt : Option (List Char) :=
      match matchLit ("reel/").toList s1 with
      | some s2 => some s2
      | none => matchLit ("p/").toList s1
    match afterAlt with
    | none => none
    | some s2 =>
      let slug := s2.takeWhile isSlugChar
      if slug.isEmpty then none
      else
        match s2.drop slug.length with
        | '/' :: s4 => some s4
        | s3 => some s3

/-- Optional `www.` component of REEL_REGEX, with the backtracking of
the regex engine when the rest of the pattern fails after it. -/
def matchAfterScheme (s : List Char) : Option (List Char) :=
  match matchLit ("www.").toList s with
  | some s1 =>
    match matchCore s1 with
    | some r => some r
    | none => matchCore s
  | none => matchCore s

/-- Expect `://` and then the host part of REEL_REGEX. -/
def matchSchemeTail (s : List Char) : Option (List Char) :=
  match matchLit ("://").toList s with
  | none => none
  | some s1 => matchAfterScheme s1

/-- Attempt to match bot.py REEL_REGEX
`https?://(www\.)?instagram\.com/(reel|p)/[A-Za-z0-9_-]+/?` at the
start of the input; on success, return the length of the match. -/
def matchReelAt (s : List Char) : Option Nat :=
  match matchLit ("http").toList s with
  | none => none
  | some s1 =>
    let res : Option (List Char) :=
      match matchLit ("s").toList s1 with
      | some s2 =>
        match matchSchemeTail s2 with
        | some r => some r
        | none => matchSchemeTail s1
      | none => matchSchemeTail s1
    res.map (fun rest => s.length - rest.length)

/-- Leftmost search of REEL_REGEX over the input, returning the matched
characters (group 0 of `REEL_REGEX.search`). -/
def reelSearchAux : List Char → Option (List Char)
  | [] => none
  | c :: cs =>
    match matchReelAt (c :: cs) with
    | some n => some ((c :: cs).take n)
    | none => reelSearchAux cs

/-- Model of `REEL_REGEX.search(text)` followed by `match.group(0)` in
bot.py (lines 78 and 365-367). -/
def reelRegexSearch (s : String) : Option String :=
  (reelSearchAux s.toList).map (fun cs => String.mk cs)

/-- Observable events of one run, in program order: a repost attempt
for a candidate (carrying the originating message identifier and the
URL or media id handed to the download/upload collaborators), a
successful publish, the addition of a message identifier to the
processed set, a randomized sleep with its configured bounds in
seconds, and a write of the processed set to the state file. -/
inductive Event
  | attempt (itemId url : String)
  | success (itemId : String)
  | mark (itemId : String)
  | sleep (lo hi : Nat)
  | save (ids : List String)
deriving DecidableEq

/-- Number of successful publishes recorded in a trace. -/
def successCount (tr : List Event) : Nat :=
  tr.countP (fun e => match e with | Event.success _ => true | _ => false)

/-- MAX_REPOSTS of bot.py (line 79). -/
def MAX_REPOSTS : Nat := 5

namespace Bot

/-- Shared-media payload of a bot.py direct message: only the `code`
field is read (bot.py lines 379-382).  A value is only placed here when
Python would find `msg_data.get("media_share")` truthy. -/
structure AMediaShare where
  code : Option String
deriving DecidableEq

/-- One item of a thread as bot.py sees it: either a dict exposing the
fields the script reads (item id, timestamp from the raw payload, free
text, shared media), or a structurally anomalous non-dict entry, on
which `msg_data.get` raises and control jumps to the per-thread
exception handler.  bot.py itself never reads the timestamp. -/
inductive MsgData
  | dict (itemId : Option String) (timestamp : Int) (text : Option String)
      (mediaShare : Option AMediaShare)
  | malformed
deriving DecidableEq

/-- One entry of the inbox thread list: a dict with a thread id and the
fetched messages, or a non-dict entry on which `thread_data.get`
raises outside the per-thread try, aborting the whole scan (bot.py
line 345, caught at line 399). -/
inductive ThreadEntry
  | thread (threadId : Option String) (items : List MsgData)
  | malformedThread
deriving DecidableEq

/-- Mutable bot state during process_dms_nuclear: the processed set and
the per-run repost counter. -/
structure BotSt where
  processed : List String
  reposts : Nat
deriving DecidableEq

/-- Result of processing a single message (bot.py lines 354-393),
assuming the quota check at the loop head already passed: either the
loop continues with an updated state and emitted events, or an
exception was raised (non-dict message). -/
inductive StepRes
  | cont (st : BotSt) (d : List Event)
  | raise
deriving DecidableEq

/-- Outcome of one repost attempt branch of the message loop (bot.py
lines 365-376 and 381-391): call brutal_repost on the URL, bump the
counter on success, add the message id to the processed set, then
`human_delay()` and `continue`. -/
def attemptStep (ok : Bool) (msgId url : String) (st : BotSt) : StepRes :=
  StepRes.cont
    ⟨insertId st.processed msgId, st.reposts + (if ok then 1 else 0)⟩
    ([Event.attempt msgId url]
      ++ (if ok then [Event.success msgId] else [])
      ++ [Event.mark msgId, Event.sleep 3 6])

/-- Outcome of the mark-only fallthrough (bot.py line 393): a visited
message with no candidate content is added to the processed set. -/
def markStep (msgId : String) (st : BotSt) : StepRes :=
  StepRes.cont ⟨insertId st.processed msgId, st.reposts⟩ [Event.mark msgId]

/-- Per-message body of the scan loop in process_dms_nuclear (bot.py
lines 358-393).  `brutal_repost` is the download/upload collaborator
oracle: given the URL it is called on, it reports whether the repost
succeeded (brutal_repost itself swallows all its own exceptions).
Branch order follows the source: the free-text URL check runs first
and `continue`s when REEL_REGEX matches; the media_share check runs
only otherwise; any visited message falls through to
`processed.add(msg_id)`. -/
def stepMsg (brutal_repost : String → Bool) (m : MsgData) (st : BotSt) : StepRes :=
  match m with
  | MsgData.malformed => StepRes.raise
  | MsgData.dict itemId _ text mediaShare =>
    let msgId := itemId.getD ""
    if msgId ∈ st.processed then StepRes.cont st []
    else
      let textS := text.getD ""
      match (if textS != "" then reelRegexSearch textS else none) with
      | some url => attemptStep (brutal_repost url) msgId url st
      | none =>
        match mediaShare with
        | some ms =>
          if pyTruthyOpt ms.code then
            let url := "https://www.instagram.com/p/" ++ ms.code.getD "" ++ "/"
            attemptStep (brutal_repost url) msgId url st
          else markStep msgId st
        | none => markStep msgId st

/-- Result of a message loop: final state, emitted events, and whether
an exception escaped to the per-thread handler. -/
structure MsgsRes where
  st : BotSt
  delta : List Event
  exc : Bool
deriving DecidableEq

/-- The message loop of one thread (bot.py lines 354-393): stop when
the repost counter reaches MAX_REPOSTS, otherwise process messages in
order; an exception ends the loop with the state mutated so far. -/
def processMsgs (brutal_repost : String → Bool) : List MsgData → BotSt → MsgsRes
  | [], st => ⟨st, [], false⟩
  | m :: rest, st =>
    if st.reposts ≥ MAX_REPOSTS then ⟨st, [], false⟩
    else
      match stepMsg brutal_repost m st with
      | StepRes.raise => ⟨st, [], true⟩
      | StepRes.cont st1 d =>
        let r := processMsgs brutal_repost rest st1
        ⟨r.st, d ++ r.delta, r.exc⟩

/-- Result of the thread loop: final state and emitted events. -/
structure ThreadsRes where
  st : BotSt
  delta : List Event
deriving DecidableEq

/-- The thread loop of process_dms_nuclear (bot.py lines 341-397):
stop at the quota; skip threads with a falsy id; cap each thread at
its first 20 messages; a per-thread exception is caught and the loop
continues with the next thread; a non-dict thread entry raises outside
the try and aborts the remaining threads. -/
def processThreads (brutal_repost : String → Bool) : List ThreadEntry → BotSt → ThreadsRes
  | [], st => ⟨st, []⟩
  | t :: rest, st =>
    if st.reposts ≥ MAX_REPOSTS then ⟨st, []⟩
    else
      match t with
      | ThreadEntry.malformedThread => ⟨st, []⟩
      | ThreadEntry.thread tid items =>
        if pyTruthyOpt tid then
          let r := processMsgs brutal_repost (items.take 20) st
          let r2 := processThreads brutal_repost rest r.st
          ⟨r2.st, r.delta ++ r2.delta⟩
        else
          processThreads brutal_repost rest st

/-- Result of one full bot.py run of the scan. -/
structure BotResult where
  processed : List String
  reposts : Nat
  trace : List Event
deriving DecidableEq

/-- process_dms_nuclear (bot.py lines 330-403): scan the first 10
threads, then unconditionally write the processed set to the state
file (line 402 runs after the catch-all except). -/
def process_dms_nuclear (brutal_repost : String → Bool) (threads : List ThreadEntry)
    (processed0 : List String) : BotResult :=
  let r := processThreads brutal_repost (threads.take 10) ⟨processed0, 0⟩
  ⟨r.st.processed, r.st.reposts, r.delta ++ [Event.save r.st.processed]⟩

end Bot

example :
    reelRegexSearch "see https://www.instagram.com/reel/Ab_1-x/ wow"
      = some "https://www.instagram.com/reel/Ab_1-x/" := by decide

example : reelRegexSearch "no url here" = none := by decide

example :
    reelRegexSearch "http://instagram.com/p/XyZ9 tail"
      = some "http://instagram.com/p/XyZ9" := by decide

namespace RepostBot

/-- Untyped Python value as found inside a raw clip payload dict:
repost_bot.py probes such dicts with `.get`, `in`, `isinstance` and
`str`. Dicts are insertion-ordered association lists, as in Python. -/
inductive PyVal
  | str (s : String)
  | int (n : Int)
  | dict (entries : List (String × PyVal))
  | list (items : List PyVal)
  | none

/-- Lookup of a key in a Python dict (first binding wins). -/
def pyGet (entries : List (String × PyVal)) (k : String) : Option PyVal :=
  match entries with
  | [] => Option.none
  | (k1, v) :: rest => if k1 = k then some v else pyGet rest k

/-- Python `str()` on the values the scripts feed to it.  Only string
and integer values reach it along the modelled paths; the remaining
constructors get a placeholder rendering. -/
def pyStr (v : PyVal) : String :=
  match v with
  | PyVal.str s => s
  | PyVal.int n => toString n
  | PyVal.dict _ => "dict"
  | PyVal.list _ => "list"
  | PyVal.none => "None"

/-- Python `str(x).split("_")[0]`, used to strip the user-id part of a
compound media id. -/
def splitUnderscoreHead (s : String) : String :=
  String.mk (s.toList.takeWhile (fun c => c != '_'))

/-- Try the alternatives of a shortcode pattern at a fixed position:
each alternative is a literal followed by a slash and then a captured
nonempty run of slug characters (group 1). -/
def matchAltSlugAt (alts : List (List Char)) (s : List Char) : Option (List Char) :=
  match alts with
  | [] => Option.none
  | a :: restAlts =>
    match matchLit a s with
    | some s1 =>
      (match s1 with
       | '/' :: s2 =>
         let slug := s2.takeWhile isSlugChar
         if slug.isEmpty then matchAltSlugAt restAlts s else some slug
       | _ => matchAltSlugAt restAlts s)
    | Option.none => matchAltSlugAt restAlts s

/-- Leftmost search for `lead` followed by one of `alts`, a slash and a
slug; returns the captured slug. -/
def searchPat (lead : List Char) (alts : List (List Char)) : List Char → Option (List Char)
  | [] => Option.none
  | c :: cs =>
    match matchLit lead (c :: cs) with
    | some s1 =>
      (match matchAltSlugAt alts s1 with
       | some slug => some slug
       | Option.none => searchPat lead alts cs)
    | Option.none => searchPat lead alts cs

/-- extract_shortcode_from_url (repost_bot.py lines 313-329): try
`instagram\.com/(p|reel|tv)/([A-Za-z0-9_-]+)` and then
`instagr\.am/p/([A-Za-z0-9_-]+)`, returning group 1. -/
def extract_shortcode_from_url (url : String) : Option String :=
  if url = "" then Option.none
  else
    match searchPat ("instagram.com/").toList
        [("p").toList, ("reel").toList, ("tv").toList] url.toList with
    | some slug => some (String.mk slug)
    | Option.none =>
      (searchPat ("instagr.am/").toList [("p").toList] url.toList).map
        (fun slug => String.mk slug)

/-- extract_media_id_from_clip (repost_bot.py lines 341-402) over a raw
clip dict.  `shortcode_to_media_id` is the network collaborator oracle
wrapping `media_info_by_shortcode` (lines 331-339); it returns the
media id for a shortcode, or nothing when every attempt fails. -/
def extract_media_id_from_clip (shortcode_to_media_id : String → Option String)
    (clip_data : List (String × PyVal)) : Option String :=
  match pyGet clip_data "id" with
  | some v => some (splitUnderscoreHead (pyStr v))
  | Option.none =>
  match pyGet clip_data "pk" with
  | some v => some (pyStr v)
  | Option.none =>
  let m3 : Option String :=
    match pyGet clip_data "code" with
    | some v => shortcode_to_media_id (pyStr v)
    | Option.none => Option.none
  match m3 with
  | some mid => some mid
  | Option.none =>
  let m4 : Option String :=
    match pyGet clip_data "clip" with
    | some (PyVal.dict nested) =>
      (match pyGet nested "id" with
       | some v => some (splitUnderscoreHead (pyStr v))
       | Option.none =>
       match pyGet nested "pk" with
       | some v => some (splitUnderscoreHead (pyStr v))
       | Option.none =>
       match pyGet nested "media_id" with
       | some v => some (splitUnderscoreHead (pyStr v))
       | Option.none =>
       match pyGet nested "fbid" with
       | some v => some (splitUnderscoreHead (pyStr v))
       | Option.none => Option.none)
    | _ => Option.none
  match m4 with
  | some mid => some mid
  | Option.none =>
  let tryUrlField : String → Option String := fun f =>
    match pyGet clip_data f with
    | some v =>
      if pyTruthy v then
        match extract_shortcode_from_url (pyStr v) with
        | some sc => shortcode_to_media_id sc
        | Option.none => Option.none
      else Option.none
    | Option.none => Option.none
  let m5 : Option String :=
    match tryUrlField "permalink" with
    | some mid => some mid
    | Option.none =>
    match tryUrlField "url" with
    | some mid => some mid
    | Option.none =>
    match tryUrlField "video_url" with
    | some mid => some mid
    | Option.none => tryUrlField "thumbnail_url"
  match m5 with
  | some mid => some mid
  | Option.none =>
  match pyGet clip_data "fbid" with
  | some v => some (pyStr v)
  | Option.none => method7 clip_data
where
  /-- Python truthiness of an untyped value. -/
  pyTruthy : PyVal → Bool
    | PyVal.str s => s != ""
    | PyVal.int n => n != 0
    | PyVal.dict entries => !entries.isEmpty
    | PyVal.list items => !items.isEmpty
    | PyVal.none => false
  /-- Method 7: first dict entry whose key contains `id` or `pk`
  (case-insensitively) with a string or integer value. -/
  method7 : List (String × PyVal) → Option String
    | [] => Option.none
    | (k, v) :: rest =>
      let kl := String.mk (k.toList.map Char.toLower)
      if (hasSub ("id").toList kl.toList || hasSub ("pk").toList kl.toList)
          && (match v with | PyVal.str _ => true | PyVal.int _ => true | _ => false) then
        some (splitUnderscoreHead (pyStr v))
      else method7 rest

/-- media_share payload of a formatted item (repost_bot.py lines
286-291, read at lines 462-470): media id, shortcode and coarse type.
A value is only placed here when Python would find the field truthy. -/
structure RMediaShare where
  id : Option String
  code : Option String
  media_type : Option Int
deriving Inhabited

/-- link payload of a formatted item (lines 297-301, read at lines
489-498). -/
structure RLink where
  link_url : Option String
  url : Option String

/-- One message item as find_reels_in_messages sees it: a dict with
the probed fields, or a structurally anomalous non-dict entry on which
`item.get` raises (there is no per-item handler in repost_bot.py, so
the exception propagates to the run-level handler). -/
inductive RItem
  | item (itemId : Option String) (timestamp : Int) (mediaShare : Option RMediaShare)
      (clip : Option (List (String × PyVal))) (link : Option RLink) (text : Option String)
  | malformed

/-- One conversation thread of the formatted inbox. -/
structure RThread where
  threadId : Option String
  items : List RItem

/-- Verified media record returned by the media_info collaborator
(get_media_info_by_any_id, lines 404-433). -/
structure MediaInfo where
  id : String
  media_type : Int
  code : Option String
deriving DecidableEq

/-- Normalized candidate record appended to the reels list
(repost_bot.py lines 504-524). -/
structure Reel where
  item_id : String
  media_id : String
  media_type : Int
  rtype : String
  timestamp : Int
  shortcode : Option String
deriving DecidableEq

/-- Common verification tail of the three branches (lines 500-524):
require a truthy media id, ask the media_info collaborator, and build
either a verified reel or, with a truthy shortcode, an unverified one
assumed to be a video. -/
def verifyReel (get_media_info : String → Option MediaInfo) (iid : String) (ts : Int)
    (rtype : String) (media_id : Option String) (shortcode : Option String) : Option Reel :=
  if pyTruthyOpt media_id then
    let mid := media_id.getD ""
    match get_media_info mid with
    | some mi =>
      some ⟨iid, mi.id, mi.media_type, rtype, ts,
        match mi.code with | some c => some c | Option.none => shortcode⟩
    | Option.none =>
      if pyTruthyOpt shortcode then some ⟨iid, mid, 2, rtype, ts, shortcode⟩
      else Option.none
  else Option.none

/-- Candidate extraction for one item that passed the id / dedup
checks: the `media_share` / `clip` / `link` elif chain of
find_reels_in_messages (lines 456-524).  The free text of the item is
never consulted. -/
def extractItem (get_media_info : String → Option MediaInfo)
    (shortcode_to_media_id : String → Option String) (iid : String) (ts : Int)
    (mediaShare : Option RMediaShare) (clip : Option (List (String × PyVal)))
    (link : Option RLink) : Option Reel :=
  match mediaShare with
  | some ms => verifyReel get_media_info iid ts "media_share" ms.id ms.code
  | Option.none =>
  match clip with
  | some clip_data =>
    let media_id := extract_media_id_from_clip shortcode_to_media_id clip_data
    let shortcode : Option String :=
      match pyGet clip_data "clip" with
      | some (PyVal.dict nested) =>
        (match pyGet nested "code" with
         | some (PyVal.str s) => some s
         | _ => Option.none)
      | _ => Option.none
    match media_id with
    | Option.none => Option.none
    | some mid => verifyReel get_media_info iid ts "clip" (some mid) shortcode
  | Option.none =>
  match link with
  | some lk =>
    let url := if pyTruthyOpt lk.link_url then lk.link_url else lk.url
    if pyTruthyOpt url
        && (hasSub ("instagram.com").toList (url.getD "").toList
          || hasSub ("instagr.am").toList (url.getD "").toList) then
      match extract_shortcode_from_url (url.getD "") with
      | some sc =>
        verifyReel get_media_info iid ts "link" (shortcode_to_media_id sc) (some sc)
      | Option.none => Option.none
    else Option.none
  | Option.none => Option.none

/-- Item loop of find_reels_in_messages (lines 446-524) over the items
of all threads in order: skip items with a falsy id, skip items whose
id is already processed, otherwise run the extraction chain.  A
non-dict item raises, which discards the reels collected so far and
propagates to the run-level handler. -/
def findReelsItems (get_media_info : String → Option MediaInfo)
    (shortcode_to_media_id : String → Option String) (processed : List String) :
    List RItem → Except Unit (List Reel)
  | [] => Except.ok []
  | RItem.malformed :: _ => Except.error ()
  | RItem.item itemId ts ms clip link _ :: rest =>
    if pyTruthyOpt itemId then
      let iid := itemId.getD ""
      if iid ∈ processed then
        findReelsItems get_media_info shortcode_to_media_id processed rest
      else
        match extractItem get_media_info shortcode_to_media_id iid ts ms clip link with
        | some r =>
          (findReelsItems get_media_info shortcode_to_media_id processed rest).map
            (fun l => r :: l)
        | Option.none =>
          findReelsItems get_media_info shortcode_to_media_id processed rest
    else findReelsItems get_media_info shortcode_to_media_id processed rest

/-- Newest-first ordering used by the final sort (line 527).  Placing
`a` before `b` exactly when `b.timestamp ≤ a.timestamp` reproduces the
stable descending sort of `reels.sort(key=..., reverse=True)`. -/
def reelGE (a b : Reel) : Prop := b.timestamp ≤ a.timestamp

instance : DecidableRel reelGE := fun a b => Int.decLe b.timestamp a.timestamp

instance : IsTotal Reel reelGE :=
  ⟨fun a b => (Int.le_total a.timestamp b.timestamp).symm⟩

instance : IsTrans Reel reelGE :=
  ⟨fun _ _ _ h1 h2 => le_trans h2 h1⟩

/-- Stable newest-first sort of the reels list (line 527). -/
def sortReels (l : List Reel) : List Reel := l.insertionSort reelGE

/-- find_reels_in_messages (lines 435-529): collect candidates over
all threads and sort them newest-first. -/
def find_reels_in_messages (get_media_info : String → Option MediaInfo)
    (shortcode_to_media_id : String → Option String) (processed : List String)
    (threads : List RThread) : Except Unit (List Reel) :=
  (findReelsItems get_media_info shortcode_to_media_id processed
      (threads.flatMap RThread.items)).map sortReels

/-- MAX_REPOSTS_PER_RUN of repost_bot.py (line 38). -/
def MAX_REPOSTS_PER_RUN : Nat := 3

/-- Result of the per-reel loop in run. -/
structure LoopRes where
  processed : List String
  count : Nat
  delta : List Event
  visited : List Reel
deriving DecidableEq

/-- Events of a reel whose download succeeded: the opening delay of
download_media, the attempt, the pre-upload delay of upload_reel, a
success event when the upload went through, the mark of line 710, and
the trailing inter-reel delay of line 721 when more reels follow. -/
def reelDeltaOk (ok trailing : Bool) (r : Reel) : List Event :=
  [Event.sleep 2 5, Event.attempt r.item_id r.media_id, Event.sleep 5 15]
    ++ (if ok then [Event.success r.item_id] else [])
    ++ [Event.mark r.item_id]
    ++ (if trailing then [Event.sleep 5 10] else [])

/-- Events of a reel whose download failed: the opening delay of
download_media, the attempt, and the mark of line 698; `continue`
skips the trailing delay of line 721. -/
def reelDeltaFail (r : Reel) : List Event :=
  [Event.sleep 2 5, Event.attempt r.item_id r.media_id, Event.mark r.item_id]

/-- The per-reel loop of run (repost_bot.py lines 686-722), with the
enumerate index and the total reel count for the trailing-delay test.
`download_media` (lines 531-590, it opens with `random_delay(2, 5)`)
and `upload_reel` (lines 592-652, it runs `random_delay(5, 15)` before
publishing) are collaborator oracles that report success or failure;
both swallow their own exceptions.  On download failure the item is
marked and the loop continues, skipping the trailing delay; otherwise
the counter is bumped on upload success and the item is marked
regardless. -/
def runLoop (download_media : String → Option String → Bool)
    (upload_reel : String → Bool) (total : Nat) :
    List Reel → Nat → Nat → List String → LoopRes
  | [], _, count, p => ⟨p, count, [], []⟩
  | r :: rest, i, count, p =>
    if count ≥ MAX_REPOSTS_PER_RUN then ⟨p, count, [], []⟩
    else
      if download_media r.media_id r.shortcode then
        let ok := upload_reel r.media_id
        let d := reelDeltaOk ok (decide (i < total - 1)) r
        let res := runLoop download_media upload_reel total rest (i + 1)
          (count + (if ok then 1 else 0)) (insertId p r.item_id)
        ⟨res.processed, res.count, d ++ res.delta, r :: res.visited⟩
      else
        let d := reelDeltaFail r
        let res := runLoop download_media upload_reel total rest (i + 1) count
          (insertId p r.item_id)
        ⟨res.processed, res.count, d ++ res.delta, r :: res.visited⟩

/-- Result of one full repost_bot.py run (after login). -/
structure RunResult where
  processed : List String
  count : Nat
  trace : List Event
deriving DecidableEq

/-- run (repost_bot.py lines 654-731) after a successful login: an
initial `random_delay(2, 5)`, then inside the try block fetch the
inbox (a falsy result saves and returns), find reels (an exception
lands in the run-level handler, which saves), a falsy reels list saves
and returns, otherwise the per-reel loop runs and the processed ids
are saved; every exit path ends with save_processed_ids. -/
def run (download_media : String → Option String → Bool) (upload_reel : String → Bool)
    (get_media_info : String → Option MediaInfo)
    (shortcode_to_media_id : String → Option String)
    (threadsOpt : Option (List RThread)) (processed0 : List String) : RunResult :=
  let d0 := [Event.sleep 2 5]
  match threadsOpt with
  | Option.none => ⟨processed0, 0, d0 ++ [Event.save processed0]⟩
  | some threads =>
    if threads.isEmpty then ⟨processed0, 0, d0 ++ [Event.save processed0]⟩
    else
      match find_reels_in_messages get_media_info shortcode_to_media_id
          processed0 threads with
      | Except.error _ => ⟨processed0, 0, d0 ++ [Event.save processed0]⟩
      | Except.ok reels =>
        if reels.isEmpty then ⟨processed0, 0, d0 ++ [Event.save processed0]⟩
        else
          let res := runLoop download_media upload_reel reels.length reels 0 0 processed0
          ⟨res.processed, res.count, d0 ++ res.delta ++ [Event.save res.processed]⟩

/-- load_processed_ids (repost_bot.py lines 71-78).  `jsonLoads` is
the stdlib JSON decoder collaborator, returning the decoded array of
id strings for the persisted format written by save_processed_ids, or
nothing when the contents are not valid JSON (json.load raises and the
except branch returns an empty set).  A missing file returns an empty
set without touching the decoder. -/
def load_processed_ids (jsonLoads : String → Option (List String))
    (file : Option String) : List String :=
  match file with
  | Option.none => []
  | some s =>
    match jsonLoads s with
    | some ids => ids
    | Option.none => []

end RepostBot

/-- load_json of bot.py (lines 137-143): a missing file or contents on
which the JSON decoder raises yield the empty list, which the
constructor turns into an empty processed set (line 181). -/
def load_json (jsonLoads : String → Option (List String)) (file : Option String) :
    List String :=
  match file with
  | Option.none => []
  | some s =>
    match jsonLoads s with
    | some ids => ids
    | Option.none => []

/-- Step function of the cadence check: track whether the run so far
keeps a sleep between any two repost attempts (first component) and
whether a sleep has occurred since the last attempt (second
component). -/
def sepStep : Bool × Bool → Event → Bool × Bool
  | (v, f), Event.attempt _ _ => (v && f, false)
  | (v, _), Event.sleep _ _ => (v, true)
  | st, _ => st

/-- Fold the cadence check over a trace. -/
def sepFold (st : Bool × Bool) (tr : List Event) : Bool × Bool := tr.foldl sepStep st

/-- A trace keeps a randomized sleep between every two successive
repost attempts exactly when this check returns true. -/
def sleepBetweenAttempts (tr : List Event) : Bool := (sepFold (true, true) tr).1

theorem sepFold_append (st : Bool × Bool) (d1 d2 : List Event) :
    sepFold st (d1 ++ d2) = sepFold (sepFold st d1) d2 :=
  List.foldl_append _ _ _ _

/-- Trace fragments that are self-contained for the cadence check:
valid and ending with a sleep since the last attempt, assuming the
same on entry. -/
def SepOk (d : List Event) : Prop := sepFold (true, true) d = (true, true)

theorem SepOk_append {d1 d2 : List Event} (h1 : SepOk d1) (h2 : SepOk d2) :
    SepOk (d1 ++ d2) := by
  unfold SepOk at *
  rw [sepFold_append, h1, h2]

/-- Trace fragments that open with a sleep before any attempt: valid
for the cadence check under any entry flag. -/
def SepAny (d : List Event) : Prop := ∀ f : Bool, (sepFold (true, f) d).1 = true

theorem SepAny_append {d1 d2 : List Event} (h1 : SepAny d1) (h2 : SepAny d2) :
    SepAny (d1 ++ d2) := by
  intro f
  rw [sepFold_append]
  have h := h1 f
  rcases e : sepFold (true, f) d1 with ⟨b1, f1⟩
  rw [e] at h
  subst h
  exact h2 f1

theorem successCount_append (d1 d2 : List Event) :
    successCount (d1 ++ d2) = successCount d1 + successCount d2 :=
  List.countP_append _ _ _

theorem mem_insertId {l : List String} {x y : String} :
    y ∈ insertId l x ↔ y = x ∨ y ∈ l := by
  unfold insertId
  split
  · rename_i hx
    constructor
    · intro h
      exact Or.inr h
    · rintro (rfl | h)
      · exact hx
      · exact h
  · exact List.mem_cons

theorem self_mem_insertId (l : List String) (x : String) : x ∈ insertId l x := by
  rw [mem_insertId]; exact Or.inl rfl

theorem insertId_subset {l : List String} {x y : String} (h : y ∈ l) :
    y ∈ insertId l x := by
  rw [mem_insertId]; exact Or.inr h

namespace Bot

/-- Message identifier a visited dict message is marked with. -/
def msgIdOf : MsgData → Option String
  | MsgData.dict iid _ _ _ => some (iid.getD "")
  | MsgData.malformed => Option.none

theorem attemptStep_props {ok : Bool} {msgId url : String} {st st1 : BotSt}
    {d : List Event} (h : attemptStep ok msgId url st = StepRes.cont st1 d)
    (hmem : msgId ∉ st.processed) :
    (∀ x, x ∈ st.processed → x ∈ st1.processed) ∧
    st1.reposts = st.reposts + successCount d ∧
    successCount d ≤ 1 ∧
    (∀ i u, Event.attempt i u ∈ d → i ∈ st1.processed) ∧
    (∀ i u, i ∈ st.processed → Event.attempt i u ∉ d) ∧
    SepOk d ∧
    (∀ x, x ∈ st1.processed → x ∈ st.processed ∨ x = msgId) := by
  unfold attemptStep at h
  obtain ⟨h1, h2⟩ := StepRes.cont.inj h
  subst h1
  subst h2
  cases ok <;>
    refine ⟨fun x hx => insertId_subset hx, by simp [successCount],
      by simp [successCount], ?_, ?_, by unfold SepOk sepFold; rfl, fun x hx => ?_⟩
  · intro i u hi
    simp [Event.attempt.injEq] at hi
    rw [hi.1]
    exact self_mem_insertId _ _
  · intro i u hin hi
    simp [Event.attempt.injEq] at hi
    exact hmem (hi.1 ▸ hin)
  · rcases mem_insertId.1 hx with h | h
    · exact Or.inr h
    · exact Or.inl h
  · intro i u hi
    simp [Event.attempt.injEq] at hi
    rw [hi.1]
    exact self_mem_insertId _ _
  · intro i u hin hi
    simp [Event.attempt.injEq] at hi
    exact hmem (hi.1 ▸ hin)
  · rcases mem_insertId.1 hx with h | h
    · exact Or.inr h
    · exact Or.inl h

theorem markStep_props {msgId : String} {st st1 : BotSt} {d : List Event}
    (h : markStep msgId st = StepRes.cont st1 d) :
    (∀ x, x ∈ st.processed → x ∈ st1.processed) ∧
    st1.reposts = st.reposts + successCount d ∧
    successCount d ≤ 1 ∧
    (∀ i u, Event.attempt i u ∈ d → i ∈ st1.processed) ∧
    (∀ i u, i ∈ st.processed → Event.attempt i u ∉ d) ∧
    SepOk d ∧
    (∀ x, x ∈ st1.processed → x ∈ st.processed ∨ x = msgId) := by
  unfold markStep at h
  obtain ⟨h1, h2⟩ := StepRes.cont.inj h
  subst h1
  subst h2
  refine ⟨fun x hx => insertId_subset hx, by simp [successCount],
    by simp [successCount], by simp, by simp, by unfold SepOk sepFold; rfl,
    fun x hx => ?_⟩
  rcases mem_insertId.1 hx with h | h
  · exact Or.inr h
  · exact Or.inl h

theorem stepMsg_cont_props {brutal_repost : String → Bool} {m : MsgData} {st st1 : BotSt}
    {d : List Event} (h : stepMsg brutal_repost m st = StepRes.cont st1 d) :
    (∀ x, x ∈ st.processed → x ∈ st1.processed) ∧
    st1.reposts = st.reposts + successCount d ∧
    successCount d ≤ 1 ∧
    (∀ i u, Event.attempt i u ∈ d → i ∈ st1.processed) ∧
    (∀ i u, i ∈ st.processed → Event.attempt i u ∉ d) ∧
    SepOk d ∧
    (∀ x, x ∈ st1.processed → x ∈ st.processed ∨ msgIdOf m = some x) := by
  cases m with
  | malformed => simp [stepMsg] at h
  | dict iid ts text ms =>
    unfold stepMsg at h
    simp only at h
    by_cases hmem : iid.getD "" ∈ st.processed
    · rw [if_pos hmem] at h
      obtain ⟨h1, h2⟩ := StepRes.cont.inj h
      subst h1
      subst h2
      exact ⟨fun x hx => hx, by simp [successCount], by simp [successCount],
        by simp, by simp, by unfold SepOk sepFold; rfl, fun x hx => Or.inl hx⟩
    · rw [if_neg hmem] at h
      have adapt :
          ((∀ x, x ∈ st.processed → x ∈ st1.processed) ∧
            st1.reposts = st.reposts + successCount d ∧
            successCount d ≤ 1 ∧
            (∀ i u, Event.attempt i u ∈ d → i ∈ st1.processed) ∧
            (∀ i u, i ∈ st.processed → Event.attempt i u ∉ d) ∧
            SepOk d ∧
            (∀ x, x ∈ st1.processed → x ∈ st.processed ∨ x = iid.getD "")) →
          ((∀ x, x ∈ st.processed → x ∈ st1.processed) ∧
            st1.reposts = st.reposts + successCount d ∧
            successCount d ≤ 1 ∧
            (∀ i u, Event.attempt i u ∈ d → i ∈ st1.processed) ∧
            (∀ i u, i ∈ st.processed → Event.attempt i u ∉ d) ∧
            SepOk d ∧
            (∀ x, x ∈ st1.processed →
              x ∈ st.processed ∨ msgIdOf (MsgData.dict iid ts text ms) = some x)) := by
        rintro ⟨c1, c2, c3, c4, c5, c6, c7⟩
        refine ⟨c1, c2, c3, c4, c5, c6, fun x hx => ?_⟩
        rcases c7 x hx with hc | hc
        · exact Or.inl hc
        · exact Or.inr (by simp [msgIdOf, hc])
      rcases hre : (if (text.getD "" != "") = true then reelRegexSearch (text.getD "")
          else Option.none) with _ | url
      · rw [hre] at h
        cases ms with
        | none => exact adapt (markStep_props h)
        | some msv =>
          simp only at h
          by_cases hcode : pyTruthyOpt msv.code = true
          · rw [if_pos hcode] at h
            exact adapt (attemptStep_props h hmem)
          · rw [if_neg hcode] at h
            exact adapt (markStep_props h)
      · rw [hre] at h
        exact adapt (attemptStep_props h hmem)


theorem processMsgs_props (brutal_repost : String → Bool) (l : List MsgData) (st : BotSt) :
    (∀ x, x ∈ st.processed → x ∈ (processMsgs brutal_repost l st).st.processed) ∧
    (processMsgs brutal_repost l st).st.reposts
      = st.reposts + successCount (processMsgs brutal_repost l st).delta ∧
    (st.reposts ≤ MAX_REPOSTS → (processMsgs brutal_repost l st).st.reposts ≤ MAX_REPOSTS) ∧
    (∀ i u, Event.attempt i u ∈ (processMsgs brutal_repost l st).delta →
      i ∈ (processMsgs brutal_repost l st).st.processed) ∧
    (∀ i u, i ∈ st.processed → Event.attempt i u ∉ (processMsgs brutal_repost l st).delta) ∧
    SepOk (processMsgs brutal_repost l st).delta ∧
    (∀ x, x ∈ (processMsgs brutal_repost l st).st.processed →
      x ∈ st.processed ∨ ∃ m ∈ l, msgIdOf m = some x) := by
  induction l generalizing st with
  | nil =>
    refine ⟨fun x hx => hx, by simp [processMsgs, successCount], ?_, ?_, ?_, ?_, ?_⟩
    · intro hb
      simpa [processMsgs] using hb
    · intro i u hi
      simp [processMsgs] at hi
    · intro i u hin hi
      simp [processMsgs] at hi
    · unfold processMsgs SepOk sepFold
      rfl
    · intro x hx
      exact Or.inl (by simpa [processMsgs] using hx)
  | cons m rest ih =>
    by_cases hq : st.reposts ≥ MAX_REPOSTS
    · have hres : processMsgs brutal_repost (m :: rest) st = ⟨st, [], false⟩ := by
        unfold processMsgs
        rw [if_pos hq]
      rw [hres]
      refine ⟨fun x hx => hx, by simp [successCount], fun hb => hb, ?_, ?_, ?_, ?_⟩
      · intro i u hi
        simp at hi
      · intro i u hin hi
        simp at hi
      · unfold SepOk sepFold
        rfl
      · intro x hx
        exact Or.inl hx
    · cases hstep : stepMsg brutal_repost m st with
      | raise =>
        have hres : processMsgs brutal_repost (m :: rest) st = ⟨st, [], true⟩ := by
          simp only [processMsgs]
          rw [if_neg hq, hstep]
        rw [hres]
        refine ⟨fun x hx => hx, by simp [successCount], fun hb => hb, ?_, ?_, ?_, ?_⟩
        · intro i u hi
          simp at hi
        · intro i u hin hi
          simp at hi
        · unfold SepOk sepFold
          rfl
        · intro x hx
          exact Or.inl hx
      | cont st1 d =>
        have hres : processMsgs brutal_repost (m :: rest) st
            = ⟨(processMsgs brutal_repost rest st1).st,
               d ++ (processMsgs brutal_repost rest st1).delta,
               (processMsgs brutal_repost rest st1).exc⟩ := by
          simp only [processMsgs]
          rw [if_neg hq, hstep]
        obtain ⟨s1, s2, s3, s4, s5, s6, s7⟩ := stepMsg_cont_props hstep
        obtain ⟨i1, i2, i3, i4, i5, i6, i7⟩ := ih st1
        rw [hres]
        refine ⟨?_, ?_, ?_, ?_, ?_, ?_, ?_⟩
        · intro x hx
          exact i1 x (s1 x hx)
        · rw [successCount_append, i2, s2]
          omega
        · intro hb
          apply i3
          omega
        · intro i u hi
          rcases List.mem_append.1 hi with hi | hi
          · exact i1 i (s4 i u hi)
          · exact i4 i u hi
        · intro i u hin hi
          rcases List.mem_append.1 hi with hi | hi
          · exact s5 i u hin hi
          · exact i5 i u (s1 i hin) hi
        · exact SepOk_append s6 i6
        · intro x hx
          rcases i7 x hx with hx1 | ⟨m2, hm2, hid2⟩
          · rcases s7 x hx1 with hx2 | hx2
            · exact Or.inl hx2
            · exact Or.inr ⟨m, List.mem_cons_self m rest, hx2⟩
          · exact Or.inr ⟨m2, List.mem_cons_of_mem m hm2, hid2⟩

/-- Message identifiers a thread entry can add to the processed set in
one run: the ids of the first 20 messages of a dict thread. -/
def threadMsgIds : ThreadEntry → List (Option String)
  | ThreadEntry.thread _ items => (items.take 20).map msgIdOf
  | ThreadEntry.malformedThread => []

theorem processThreads_props (brutal_repost : String → Bool) (l : List ThreadEntry)
    (st : BotSt) :
    (∀ x, x ∈ st.processed → x ∈ (processThreads brutal_repost l st).st.processed) ∧
    (processThreads brutal_repost l st).st.reposts
      = st.reposts + successCount (processThreads brutal_repost l st).delta ∧
    (st.reposts ≤ MAX_REPOSTS →
      (processThreads brutal_repost l st).st.reposts ≤ MAX_REPOSTS) ∧
    (∀ i u, Event.attempt i u ∈ (processThreads brutal_repost l st).delta →
      i ∈ (processThreads brutal_repost l st).st.processed) ∧
    (∀ i u, i ∈ st.processed →
      Event.attempt i u ∉ (processThreads brutal_repost l st).delta) ∧
    SepOk (processThreads brutal_repost l st).delta ∧
    (∀ x, x ∈ (processThreads brutal_repost l st).st.processed →
      x ∈ st.processed ∨ ∃ t ∈ l, some x ∈ threadMsgIds t) := by
  induction l generalizing st with
  | nil =>
    refine ⟨fun x hx => hx, by simp [processThreads, successCount], ?_, ?_, ?_, ?_, ?_⟩
    · intro hb
      simpa [processThreads] using hb
    · intro i u hi
      simp [processThreads] at hi
    · intro i u hin hi
      simp [processThreads] at hi
    · unfold processThreads SepOk sepFold
      rfl
    · intro x hx
      exact Or.inl (by simpa [processThreads] using hx)
  | cons t rest ih =>
    by_cases hq : st.reposts ≥ MAX_REPOSTS
    · have hres : processThreads brutal_repost (t :: rest) st = ⟨st, []⟩ := by
        unfold processThreads
        rw [if_pos hq]
      rw [hres]
      refine ⟨fun x hx => hx, by simp [successCount], fun hb => hb, ?_, ?_, ?_, ?_⟩
      · intro i u hi
        simp at hi
      · intro i u hin hi
        simp at hi
      · unfold SepOk sepFold
        rfl
      · intro x hx
        exact Or.inl hx
    · cases t with
      | malformedThread =>
        have hres : processThreads brutal_repost (ThreadEntry.malformedThread :: rest) st
            = ⟨st, []⟩ := by
          simp only [processThreads]
          rw [if_neg hq]
        rw [hres]
        refine ⟨fun x hx => hx, by simp [successCount], fun hb => hb, ?_, ?_, ?_, ?_⟩
        · intro i u hi
          simp at hi
        · intro i u hin hi
          simp at hi
        · unfold SepOk sepFold
          rfl
        · intro x hx
          exact Or.inl hx
      | thread tid items =>
        by_cases htid : pyTruthyOpt tid = true
        · have hres : processThreads brutal_repost (ThreadEntry.thread tid items :: rest) st
              = ⟨(processThreads brutal_repost rest
                    (processMsgs brutal_repost (items.take 20) st).st).st,
                 (processMsgs brutal_repost (items.take 20) st).delta
                   ++ (processThreads brutal_repost rest
                        (processMsgs brutal_repost (items.take 20) st).st).delta⟩ := by
            simp only [processThreads]
            rw [if_neg hq, if_pos htid]
          obtain ⟨s1, s2, s3, s4, s5, s6, s7⟩ :=
            processMsgs_props brutal_repost (items.take 20) st
          obtain ⟨i1, i2, i3, i4, i5, i6, i7⟩ :=
            ih (processMsgs brutal_repost (items.take 20) st).st
          rw [hres]
          refine ⟨?_, ?_, ?_, ?_, ?_, ?_, ?_⟩
          · intro x hx
            exact i1 x (s1 x hx)
          · rw [successCount_append, i2, s2]
            omega
          · intro hb
            apply i3
            exact s3 hb
          · intro i u hi
            rcases List.mem_append.1 hi with hi | hi
            · exact i1 i (s4 i u hi)
            · exact i4 i u hi
          · intro i u hin hi
            rcases List.mem_append.1 hi with hi | hi
            · exact s5 i u hin hi
            · exact i5 i u (s1 i hin) hi
          · exact SepOk_append s6 i6
          · intro x hx
            rcases i7 x hx with hx1 | ⟨t2, ht2, hid2⟩
            · rcases s7 x hx1 with hx2 | ⟨m2, hm2, hid2⟩
              · exact Or.inl hx2
              · refine Or.inr ⟨ThreadEntry.thread tid items, List.mem_cons_self _ _, ?_⟩
                unfold threadMsgIds
                exact List.mem_map.2 ⟨m2, hm2, hid2⟩
            · exact Or.inr ⟨t2, List.mem_cons_of_mem _ ht2, hid2⟩
        · have hres : processThreads brutal_repost (ThreadEntry.thread tid items :: rest) st
              = processThreads brutal_repost rest st := by
            simp only [processThreads]
            rw [if_neg hq, if_neg htid]
          obtain ⟨i1, i2, i3, i4, i5, i6, i7⟩ := ih st
          rw [hres]
          refine ⟨i1, i2, i3, i4, i5, i6, ?_⟩
          intro x hx
          rcases i7 x hx with hx1 | ⟨t2, ht2, hid2⟩
          · exact Or.inl hx1
          · exact Or.inr ⟨t2, List.mem_cons_of_mem _ ht2, hid2⟩

end Bot

namespace RepostBot

theorem successCount_reelDeltaOk (ok trailing : Bool) (r : Reel) :
    successCount (reelDeltaOk ok trailing r) = if ok then 1 else 0 := by
  cases ok <;> cases trailing <;> simp [reelDeltaOk, successCount]

theorem successCount_reelDeltaFail (r : Reel) :
    successCount (reelDeltaFail r) = 0 := by
  simp [reelDeltaFail, successCount]

theorem sepAny_reelDeltaOk (ok trailing : Bool) (r : Reel) :
    SepAny (reelDeltaOk ok trailing r) := by
  intro f
  cases ok <;> cases trailing <;> rfl

theorem sepAny_reelDeltaFail (r : Reel) : SepAny (reelDeltaFail r) := by
  intro f
  rfl

theorem attempt_mem_reelDeltaOk {ok trailing : Bool} {r : Reel} {iid u : String}
    (h : Event.attempt iid u ∈ reelDeltaOk ok trailing r) :
    iid = r.item_id ∧ u = r.media_id := by
  cases ok <;> cases trailing <;> simpa [reelDeltaOk] using h

theorem attempt_mem_reelDeltaFail {r : Reel} {iid u : String}
    (h : Event.attempt iid u ∈ reelDeltaFail r) :
    iid = r.item_id ∧ u = r.media_id := by
  simpa [reelDeltaFail] using h

theorem runLoop_props (download_media : String → Option String → Bool)
    (upload_reel : String → Bool) (total : Nat) (l : List Reel) (i count : Nat)
    (p : List String) :
    (∀ x, x ∈ p → x ∈ (runLoop download_media upload_reel total l i count p).processed) ∧
    (runLoop download_media upload_reel total l i count p).count
      = count + successCount (runLoop download_media upload_reel total l i count p).delta ∧
    (count ≤ MAX_REPOSTS_PER_RUN →
      (runLoop download_media upload_reel total l i count p).count ≤ MAX_REPOSTS_PER_RUN) ∧
    (∀ iid u,
      Event.attempt iid u ∈ (runLoop download_media upload_reel total l i count p).delta →
      iid ∈ (runLoop download_media upload_reel total l i count p).processed) ∧
    (∀ iid u,
      Event.attempt iid u ∈ (runLoop download_media upload_reel total l i count p).delta →
      ∃ r ∈ l, r.item_id = iid) ∧
    (∀ r, r ∈ (runLoop download_media upload_reel total l i count p).visited →
      r.item_id ∈ (runLoop download_media upload_reel total l i count p).processed) ∧
    SepAny (runLoop download_media upload_reel total l i count p).delta ∧
    count ≤ (runLoop download_media upload_reel total l i count p).count ∧
    ((runLoop download_media upload_reel total l i count p).count < MAX_REPOSTS_PER_RUN →
      ∀ r ∈ l, r ∈ (runLoop download_media upload_reel total l i count p).visited) := by
  induction l generalizing i count p with
  | nil =>
    refine ⟨fun x hx => hx, by simp [runLoop, successCount], fun hb => hb, ?_, ?_, ?_, ?_,
      le_refl _, ?_⟩
    · intro iid u hi
      simp [runLoop] at hi
    · intro iid u hi
      simp [runLoop] at hi
    · intro r hr
      simp [runLoop] at hr
    · intro f
      rfl
    · intro _ r hr
      simp at hr
  | cons r rest ih =>
    by_cases hq : count ≥ MAX_REPOSTS_PER_RUN
    · have hres : runLoop download_media upload_reel total (r :: rest) i count p
          = ⟨p, count, [], []⟩ := by
        simp only [runLoop]
        rw [if_pos hq]
      rw [hres]
      refine ⟨fun x hx => hx, by simp [successCount], fun hb => hb, ?_, ?_, ?_, ?_,
        le_refl _, ?_⟩
      · intro iid u hi
        simp at hi
      · intro iid u hi
        simp at hi
      · intro r2 hr
        simp at hr
      · intro f
        rfl
      · intro hlt
        have hlt2 : count < MAX_REPOSTS_PER_RUN := hlt
        omega
    · by_cases hdl : download_media r.media_id r.shortcode = true
      · have hres : runLoop download_media upload_reel total (r :: rest) i count p
            = ⟨(runLoop download_media upload_reel total rest (i + 1)
                  (count + (if upload_reel r.media_id then 1 else 0))
                  (insertId p r.item_id)).processed,
               (runLoop download_media upload_reel total rest (i + 1)
                  (count + (if upload_reel r.media_id then 1 else 0))
                  (insertId p r.item_id)).count,
               reelDeltaOk (upload_reel r.media_id) (decide (i < total - 1)) r
                 ++ (runLoop download_media upload_reel total rest (i + 1)
                      (count + (if upload_reel r.media_id then 1 else 0))
                      (insertId p r.item_id)).delta,
               r :: (runLoop download_media upload_reel total rest (i + 1)
                      (count + (if upload_reel r.media_id then 1 else 0))
                      (insertId p r.item_id)).visited⟩ := by
          simp only [runLoop]
          rw [if_neg hq, if_pos hdl]
        obtain ⟨i1, i2, i3, i4, i5, i6, i7, i8, i9⟩ :=
          ih (i + 1) (count + (if upload_reel r.media_id then 1 else 0))
            (insertId p r.item_id)
        rw [hres]
        refine ⟨?_, ?_, ?_, ?_, ?_, ?_, ?_, ?_, ?_⟩
        · intro x hx
          exact i1 x (insertId_subset hx)
        · rw [successCount_append, successCount_reelDeltaOk, i2, Nat.add_assoc]
        · intro hb
          apply i3
          have h1 : (if upload_reel r.media_id = true then (1 : Nat) else 0) ≤ 1 := by
            split <;> omega
          have hq2 : ¬ count ≥ MAX_REPOSTS_PER_RUN := hq
          omega
        · intro iid u hi
          rcases List.mem_append.1 hi with hi | hi
          · obtain ⟨rfl, -⟩ := attempt_mem_reelDeltaOk hi
            exact i1 _ (self_mem_insertId _ _)
          · exact i4 iid u hi
        · intro iid u hi
          rcases List.mem_append.1 hi with hi | hi
          · obtain ⟨rfl, -⟩ := attempt_mem_reelDeltaOk hi
            exact ⟨r, List.mem_cons_self _ _, rfl⟩
          · obtain ⟨r2, hr2, he⟩ := i5 iid u hi
            exact ⟨r2, List.mem_cons_of_mem _ hr2, he⟩
        · intro r2 hr
          rcases List.mem_cons.1 hr with rfl | hr
          · exact i1 _ (self_mem_insertId _ _)
          · exact i6 r2 hr
        · exact SepAny_append (sepAny_reelDeltaOk _ _ _) i7
        · exact le_trans (Nat.le_add_right _ _) i8
        · intro hlt r2 hr2
          rcases List.mem_cons.1 hr2 with rfl | hr2
          · exact List.mem_cons_self _ _
          · exact List.mem_cons_of_mem _ (i9 hlt r2 hr2)
      · have hres : runLoop download_media upload_reel total (r :: rest) i count p
            = ⟨(runLoop download_media upload_reel total rest (i + 1) count
                  (insertId p r.item_id)).processed,
               (runLoop download_media upload_reel total rest (i + 1) count
                  (insertId p r.item_id)).count,
               reelDeltaFail r
                 ++ (runLoop download_media upload_reel total rest (i + 1) count
                      (insertId p r.item_id)).delta,
               r :: (runLoop download_media upload_reel total rest (i + 1) count
                      (insertId p r.item_id)).visited⟩ := by
          simp only [runLoop]
          rw [if_neg hq, if_neg hdl]
        obtain ⟨i1, i2, i3, i4, i5, i6, i7, i8, i9⟩ :=
          ih (i + 1) count (insertId p r.item_id)
        rw [hres]
        refine ⟨?_, ?_, ?_, ?_, ?_, ?_, ?_, ?_, ?_⟩
        · intro x hx
          exact i1 x (insertId_subset hx)
        · rw [successCount_append, successCount_reelDeltaFail, i2]
          omega
        · intro hb
          exact i3 hb
        · intro iid u hi
          rcases List.mem_append.1 hi with hi | hi
          · obtain ⟨rfl, -⟩ := attempt_mem_reelDeltaFail hi
            exact i1 _ (self_mem_insertId _ _)
          · exact i4 iid u hi
        · intro iid u hi
          rcases List.mem_append.1 hi with hi | hi
          · obtain ⟨rfl, -⟩ := attempt_mem_reelDeltaFail hi
            exact ⟨r, List.mem_cons_self _ _, rfl⟩
          · obtain ⟨r2, hr2, he⟩ := i5 iid u hi
            exact ⟨r2, List.mem_cons_of_mem _ hr2, he⟩
        · intro r2 hr
          rcases List.mem_cons.1 hr with rfl | hr
          · exact i1 _ (self_mem_insertId _ _)
          · exact i6 r2 hr
        · exact SepAny_append (sepAny_reelDeltaFail _) i7
        · exact i8
        · intro hlt r2 hr2
          rcases List.mem_cons.1 hr2 with rfl | hr2
          · exact List.mem_cons_self _ _
          · exact List.mem_cons_of_mem _ (i9 hlt r2 hr2)

theorem runLoop_visited_all_success (download_media : String → Option String → Bool)
    (upload_reel : String → Bool) (total : Nat) (l : List Reel)
    (hsucc : ∀ r ∈ l, download_media r.media_id r.shortcode = true
      ∧ upload_reel r.media_id = true) :
    ∀ (i count : Nat) (p : List String),
      (runLoop download_media upload_reel total l i count p).visited
        = l.take (MAX_REPOSTS_PER_RUN - count) := by
  induction l with
  | nil =>
    intro i count p
    simp [runLoop]
  | cons r rest ih =>
    intro i count p
    by_cases hq : count ≥ MAX_REPOSTS_PER_RUN
    · have h0 : MAX_REPOSTS_PER_RUN - count = 0 := by omega
      have hres : runLoop download_media upload_reel total (r :: rest) i count p
          = ⟨p, count, [], []⟩ := by
        simp only [runLoop]
        rw [if_pos hq]
      rw [hres, h0]
      rfl
    · obtain ⟨hdl, hul⟩ := hsucc r (List.mem_cons_self _ _)
      have hres : (runLoop download_media upload_reel total (r :: rest) i count p).visited
          = r :: (runLoop download_media upload_reel total rest (i + 1) (count + 1)
                (insertId p r.item_id)).visited := by
        simp only [runLoop]
        rw [if_neg hq, if_pos hdl, hul]
        rfl
      rw [hres]
      have hstep : MAX_REPOSTS_PER_RUN - count
          = (MAX_REPOSTS_PER_RUN - (count + 1)) + 1 := by
        unfold MAX_REPOSTS_PER_RUN at *
        omega
      rw [ih (fun r2 hr2 => hsucc r2 (List.mem_cons_of_mem _ hr2)) (i + 1) (count + 1)
        (insertId p r.item_id), hstep, List.take_succ_cons]

theorem verifyReel_item_id {get_media_info : String → Option MediaInfo} {iid : String}
    {ts : Int} {rt : String} {mo sc : Option String} {r : Reel}
    (h : verifyReel get_media_info iid ts rt mo sc = some r) : r.item_id = iid := by
  unfold verifyReel at h
  by_cases ht : pyTruthyOpt mo = true
  · rw [if_pos ht] at h
    dsimp only at h
    cases hg : get_media_info (mo.getD "") with
    | some mi =>
      rw [hg] at h
      obtain rfl := Option.some.inj h
      rfl
    | none =>
      rw [hg] at h
      by_cases hsc : pyTruthyOpt sc = true
      · rw [if_pos hsc] at h
        obtain rfl := Option.some.inj h
        rfl
      · rw [if_neg hsc] at h
        cases h
  · rw [if_neg ht] at h
    cases h

theorem extractItem_item_id {get_media_info : String → Option MediaInfo}
    {shortcode_to_media_id : String → Option String} {iid : String} {ts : Int}
    {ms : Option RMediaShare} {clip : Option (List (String × PyVal))} {link : Option RLink}
    {r : Reel}
    (h : extractItem get_media_info shortcode_to_media_id iid ts ms clip link = some r) :
    r.item_id = iid := by
  unfold extractItem at h
  cases ms with
  | some msv => exact verifyReel_item_id h
  | none =>
    cases clip with
    | some clip_data =>
      simp only at h
      rcases hmid : extract_media_id_from_clip shortcode_to_media_id clip_data with _ | mid
      · rw [hmid] at h
        cases h
      · rw [hmid] at h
        exact verifyReel_item_id h
    | none =>
      cases link with
      | some lk =>
        dsimp only at h
        repeat'
          first
            | exact verifyReel_item_id h
            | cases h
            | split at h
      | none => cases h

theorem findReelsItems_not_processed (get_media_info : String → Option MediaInfo)
    (shortcode_to_media_id : String → Option String) (p : List String) :
    ∀ (items : List RItem) (l : List Reel),
      findReelsItems get_media_info shortcode_to_media_id p items = Except.ok l →
      ∀ r ∈ l, r.item_id ∉ p := by
  intro items
  induction items with
  | nil =>
    intro l h r hr
    simp only [findReelsItems] at h
    obtain rfl := Except.ok.inj h
    simp at hr
  | cons it rest ih =>
    intro l h r hr
    cases it with
    | malformed => simp [findReelsItems] at h
    | item itemId ts ms clip link text =>
      simp only [findReelsItems] at h
      by_cases htr : pyTruthyOpt itemId = true
      · rw [if_pos htr] at h
        by_cases hmem : itemId.getD "" ∈ p
        · rw [if_pos hmem] at h
          exact ih l h r hr
        · rw [if_neg hmem] at h
          rcases hex : extractItem get_media_info shortcode_to_media_id
              (itemId.getD "") ts ms clip link with _ | r0
          · rw [hex] at h
            exact ih l h r hr
          · rw [hex] at h
            rcases hrest : findReelsItems get_media_info shortcode_to_media_id p rest
                with e | l0
            · rw [hrest] at h
              simp [Except.map] at h
            · rw [hrest] at h
              simp only [Except.map] at h
              obtain rfl := Except.ok.inj h
              rcases List.mem_cons.1 hr with rfl | hr2
              · rw [extractItem_item_id hex]
                exact hmem
              · exact ih l0 hrest r hr2
      · rw [if_neg htr] at h
        exact ih l h r hr

theorem findReelsItems_skip (get_media_info : String → Option MediaInfo)
    (shortcode_to_media_id : String → Option String) {p p2 : List String}
    (hsub : ∀ x, x ∈ p → x ∈ p2) :
    ∀ (items : List RItem) (l : List Reel),
      findReelsItems get_media_info shortcode_to_media_id p items = Except.ok l →
      (∀ r ∈ l, r.item_id ∈ p2) →
      findReelsItems get_media_info shortcode_to_media_id p2 items = Except.ok [] := by
  intro items
  induction items with
  | nil =>
    intro l h hall
    rfl
  | cons it rest ih =>
    intro l h hall
    cases it with
    | malformed => simp [findReelsItems] at h
    | item itemId ts ms clip link text =>
      simp only [findReelsItems] at h ⊢
      by_cases htr : pyTruthyOpt itemId = true
      · rw [if_pos htr] at h ⊢
        by_cases hmem : itemId.getD "" ∈ p
        · rw [if_pos hmem] at h
          rw [if_pos (hsub _ hmem)]
          exact ih l h hall
        · rw [if_neg hmem] at h
          rcases hex : extractItem get_media_info shortcode_to_media_id
              (itemId.getD "") ts ms clip link with _ | r0
          · rw [hex] at h
            by_cases hmem2 : itemId.getD "" ∈ p2
            · rw [if_pos hmem2]
              exact ih l h hall
            · rw [if_neg hmem2]
              simp only [hex]
              exact ih l h hall
          · rw [hex] at h
            rcases hrest : findReelsItems get_media_info shortcode_to_media_id p rest
                with e | l0
            · rw [hrest] at h
              simp [Except.map] at h
            · rw [hrest] at h
              simp only [Except.map] at h
              obtain rfl := Except.ok.inj h
              have hid : r0.item_id ∈ p2 := hall r0 (List.mem_cons_self _ _)
              rw [extractItem_item_id hex] at hid
              rw [if_pos hid]
              exact ih l0 hrest (fun r hr => hall r (List.mem_cons_of_mem _ hr))
      · rw [if_neg htr] at h ⊢
        exact ih l h hall

theorem findReelsItems_error_of_malformed (get_media_info : String → Option MediaInfo)
    (shortcode_to_media_id : String → Option String) (p : List String) :
    ∀ (items : List RItem), RItem.malformed ∈ items →
      findReelsItems get_media_info shortcode_to_media_id p items = Except.error () := by
  intro items
  induction items with
  | nil =>
    intro hm
    simp at hm
  | cons it rest ih =>
    intro hm
    cases it with
    | malformed => rfl
    | item itemId ts ms clip link text =>
      have hm2 : RItem.malformed ∈ rest := by
        rcases List.mem_cons.1 hm with he | hm2
        · cases he
        · exact hm2
      simp only [findReelsItems]
      by_cases htr : pyTruthyOpt itemId = true
      · rw [if_pos htr]
        by_cases hmem : itemId.getD "" ∈ p
        · rw [if_pos hmem]
          exact ih hm2
        · rw [if_neg hmem]
          rcases hex : extractItem get_media_info shortcode_to_media_id
              (itemId.getD "") ts ms clip link with _ | r0
          · exact ih hm2
          · rw [ih hm2]
            rfl
      · rw [if_neg htr]
        exact ih hm2

theorem sortReels_perm (l : List Reel) : (sortReels l).Perm l :=
  List.perm_insertionSort reelGE l

theorem sortReels_sorted (l : List Reel) : List.Sorted reelGE (sortReels l) :=
  List.sorted_insertionSort reelGE l

theorem find_reels_ok_elim {get_media_info : String → Option MediaInfo}
    {shortcode_to_media_id : String → Option String} {p : List String}
    {threads : List RThread} {rs : List Reel}
    (h : find_reels_in_messages get_media_info shortcode_to_media_id p threads
      = Except.ok rs) :
    ∃ l0, findReelsItems get_media_info shortcode_to_media_id p
        (threads.flatMap RThread.items) = Except.ok l0 ∧ rs = sortReels l0 := by
  unfold find_reels_in_messages at h
  rcases he : findReelsItems get_media_info shortcode_to_media_id p
      (threads.flatMap RThread.items) with e | l0
  · rw [he] at h
    simp [Except.map] at h
  · rw [he] at h
    simp only [Except.map] at h
    exact ⟨l0, rfl, (Except.ok.inj h).symm⟩

end RepostBot

/-- Whitespace skipping of the JSON decoder model. -/
def skipWs (l : List Char) : List Char :=
  l.dropWhile (fun c => c = ' ' || c = '\n' || c = '\t' || c = '\r')

/-- Unescaping of the simple JSON escapes the persisted id strings can
contain. -/
def unescapeChar (c : Char) : Char :=
  match c with
  | 'n' => '\n'
  | 't' => '\t'
  | 'r' => '\r'
  | _ => c

/-- Parse the remainder of a JSON string literal after its opening
quote, returning the decoded characters and the rest of the input. -/
def strChars : List Char → Option (List Char × List Char)
  | [] => Option.none
  | '"' :: rest => some ([], rest)
  | '\\' :: c :: rest => (strChars rest).map (fun p => (unescapeChar c :: p.1, p.2))
  | c :: rest => (strChars rest).map (fun p => (c :: p.1, p.2))

/-- Parse the elements of a JSON array of strings, after the opening
bracket; `allowClose` is false right after a comma, rejecting trailing
commas as json.loads does. -/
def parseElems : Nat → Bool → List Char → Option (List String)
  | 0, _, _ => Option.none
  | fuel + 1, allowClose, l =>
    match skipWs l with
    | ']' :: rest => if allowClose && (skipWs rest).isEmpty then some [] else Option.none
    | '"' :: rest =>
      (match strChars rest with
       | Option.none => Option.none
       | some (cs, rest2) =>
         match skipWs rest2 with
         | ',' :: rest3 => (parseElems fuel false rest3).map (fun xs => String.mk cs :: xs)
         | ']' :: rest3 =>
           if (skipWs rest3).isEmpty then some [String.mk cs] else Option.none
         | _ => Option.none)
    | _ => Option.none

/-- Executable model of the stdlib JSON decoder restricted to the
persisted state format, a JSON array of id strings (that is what
save_processed_ids and save_json write): returns the decoded list, or
nothing when the contents do not parse, in which case json.load
raises. -/
def parseJsonStringArray (s : String) : Option (List String) :=
  match skipWs s.toList with
  | '[' :: rest => parseElems (s.length + 1) true rest
  | _ => Option.none

example : parseJsonStringArray "[\"a1\", \"b2\"]" = some ["a1", "b2"] := by decide

example : parseJsonStringArray "not json" = Option.none := by decide

example : parseJsonStringArray "[\"a1\", ]" = Option.none := by decide

namespace Bot

/-- Cap one thread entry at its first 20 messages. -/
def truncThread : ThreadEntry → ThreadEntry
  | ThreadEntry.thread tid items => ThreadEntry.thread tid (items.take 20)
  | ThreadEntry.malformedThread => ThreadEntry.malformedThread

/-- Cap the inbox at the first 10 threads of 20 messages each: the
part of the input process_dms_nuclear can ever look at (bot.py lines
341 and 354). -/
def truncThreads (threads : List ThreadEntry) : List ThreadEntry :=
  (threads.take 10).map truncThread

theorem processThreads_map_trunc (brutal_repost : String → Bool) :
    ∀ (l : List ThreadEntry) (st : BotSt),
      processThreads brutal_repost (l.map truncThread) st
        = processThreads brutal_repost l st := by
  intro l
  induction l with
  | nil => intro st; rfl
  | cons t rest ih =>
    intro st
    by_cases hq : st.reposts ≥ MAX_REPOSTS
    · simp only [List.map_cons, processThreads]
      rw [if_pos hq, if_pos hq]
    · cases t with
      | malformedThread =>
        simp only [List.map_cons, truncThread, processThreads]
      | thread tid items =>
        simp only [List.map_cons, truncThread, processThreads]
        rw [if_neg hq, if_neg hq]
        by_cases htid : pyTruthyOpt tid = true
        · rw [if_pos htid, if_pos htid]
          rw [List.take_take]
          norm_num
          exact ⟨congrArg (fun x => x.st) (ih _), congrArg (fun x => x.delta) (ih _)⟩
        · rw [if_neg htid, if_neg htid]
          exact ih st

end Bot

theorem process_dms_elim (brutal_repost : String → Bool) (threads : List Bot.ThreadEntry)
    (p0 : List String) :
    Bot.process_dms_nuclear brutal_repost threads p0
      = ⟨(Bot.processThreads brutal_repost (threads.take 10) ⟨p0, 0⟩).st.processed,
         (Bot.processThreads brutal_repost (threads.take 10) ⟨p0, 0⟩).st.reposts,
         (Bot.processThreads brutal_repost (threads.take 10) ⟨p0, 0⟩).delta
           ++ [Event.save
                (Bot.processThreads brutal_repost (threads.take 10) ⟨p0, 0⟩).st.processed]⟩ :=
  rfl

theorem run_elim (download_media : String → Option String → Bool)
    (upload_reel : String → Bool) (get_media_info : String → Option RepostBot.MediaInfo)
    (shortcode_to_media_id : String → Option String)
    (threadsOpt : Option (List RepostBot.RThread)) (p0 : List String) :
    (RepostBot.run download_media upload_reel get_media_info shortcode_to_media_id
        threadsOpt p0
      = ⟨p0, 0, [Event.sleep 2 5, Event.save p0]⟩)
    ∨ (∃ threads reels, threadsOpt = some threads ∧
        RepostBot.find_reels_in_messages get_media_info shortcode_to_media_id p0 threads
          = Except.ok reels ∧
        reels ≠ [] ∧
        RepostBot.run download_media upload_reel get_media_info shortcode_to_media_id
            threadsOpt p0
          = ⟨(RepostBot.runLoop download_media upload_reel reels.length reels 0 0
                p0).processed,
             (RepostBot.runLoop download_media upload_reel reels.length reels 0 0 p0).count,
             [Event.sleep 2 5]
               ++ (RepostBot.runLoop download_media upload_reel reels.length reels 0 0
                    p0).delta
               ++ [Event.save (RepostBot.runLoop download_media upload_reel reels.length
                    reels 0 0 p0).processed]⟩) := by
  unfold RepostBot.run
  cases threadsOpt with
  | none => exact Or.inl rfl
  | some threads =>
    dsimp only
    by_cases hemp : threads.isEmpty = true
    · rw [if_pos hemp]
      exact Or.inl rfl
    · rw [if_neg hemp]
      rcases hfr : RepostBot.find_reels_in_messages get_media_info shortcode_to_media_id
          p0 threads with e | reels
      · exact Or.inl rfl
      · dsimp only
        by_cases hre : reels.isEmpty = true
        · rw [if_pos hre]
          exact Or.inl rfl
        · rw [if_neg hre]
          have hne : reels ≠ [] := by
            intro hn
            rw [hn] at hre
            exact hre rfl
          exact Or.inr ⟨threads, reels, rfl, hfr, hne, rfl⟩

theorem successCount_save (ids : List String) : successCount [Event.save ids] = 0 := rfl

theorem sepAny_with_save {d : List Event} (h : SepAny d) (ids : List String) (f : Bool) :
    (sepFold (true, f) (d ++ [Event.save ids])).1 = true := by
  rw [sepFold_append]
  rcases e : sepFold (true, f) d with ⟨b, f2⟩
  have hb := h f
  rw [e] at hb
  subst hb
  rfl

/-- C1: in every run the number of successful reposts is at most the
configured per-run quota (MAX_REPOSTS = 5 in bot.py,
MAX_REPOSTS_PER_RUN = 3 in repost_bot.py): the repost counter equals
the number of successful publishes in the trace, that number never
exceeds the quota, and once the counter reaches the quota the
candidate loop performs no further work. -/
theorem claim_C1_quota_invariant :
    (∀ (brutal_repost : String → Bool) (threads : List Bot.ThreadEntry) (p0 : List String),
      (Bot.process_dms_nuclear brutal_repost threads p0).reposts
        = successCount (Bot.process_dms_nuclear brutal_repost threads p0).trace ∧
      successCount (Bot.process_dms_nuclear brutal_repost threads p0).trace ≤ MAX_REPOSTS) ∧
    (∀ (brutal_repost : String → Bool) (msgs : List Bot.MsgData) (p : List String),
      Bot.processMsgs brutal_repost msgs ⟨p, MAX_REPOSTS⟩ = ⟨⟨p, MAX_REPOSTS⟩, [], false⟩) ∧
    (∀ (download_media : String → Option String → Bool) (upload_reel : String → Bool)
      (get_media_info : String → Option RepostBot.MediaInfo)
      (shortcode_to_media_id : String → Option String)
      (threadsOpt : Option (List RepostBot.RThread)) (p0 : List String),
      (RepostBot.run download_media upload_reel get_media_info shortcode_to_media_id
          threadsOpt p0).count
        = successCount (RepostBot.run download_media upload_reel get_media_info
            shortcode_to_media_id threadsOpt p0).trace ∧
      successCount (RepostBot.run download_media upload_reel get_media_info
          shortcode_to_media_id threadsOpt p0).trace ≤ RepostBot.MAX_REPOSTS_PER_RUN) ∧
    (∀ (download_media : String → Option String → Bool) (upload_reel : String → Bool)
      (total : Nat) (l : List RepostBot.Reel) (i : Nat) (p : List String),
      RepostBot.runLoop download_media upload_reel total l i
          RepostBot.MAX_REPOSTS_PER_RUN p
        = ⟨p, RepostBot.MAX_REPOSTS_PER_RUN, [], []⟩) := by
  refine ⟨?_, ?_, ?_, ?_⟩
  · intro brutal_repost threads p0
    obtain ⟨-, h2, h3, -, -, -, -⟩ :=
      Bot.processThreads_props brutal_repost (threads.take 10) ⟨p0, 0⟩
    have h0 : (⟨p0, 0⟩ : Bot.BotSt).reposts = 0 := rfl
    rw [h0] at h2 h3
    rw [process_dms_elim]
    dsimp only
    rw [successCount_append, successCount_save]
    have hb := h3 (by unfold MAX_REPOSTS; omega)
    constructor
    · omega
    · omega
  · intro brutal_repost msgs p
    cases msgs with
    | nil => rfl
    | cons m rest =>
      simp only [Bot.processMsgs]
      rw [if_pos (le_refl _)]
  · intro download_media upload_reel get_media_info shortcode_to_media_id threadsOpt p0
    rcases run_elim download_media upload_reel get_media_info shortcode_to_media_id
        threadsOpt p0 with h | ⟨threads, reels, -, -, -, h⟩
    · rw [h]
      refine ⟨rfl, ?_⟩
      have h0 : successCount [Event.sleep 2 5, Event.save p0] = 0 := rfl
      dsimp only
      rw [h0]
      unfold RepostBot.MAX_REPOSTS_PER_RUN
      omega
    · obtain ⟨-, l2, l3, -, -, -, -, -, -⟩ :=
        RepostBot.runLoop_props download_media upload_reel reels.length reels 0 0 p0
      rw [h]
      dsimp only
      have hsc : successCount ([Event.sleep 2 5]
          ++ (RepostBot.runLoop download_media upload_reel reels.length reels 0 0 p0).delta
          ++ [Event.save (RepostBot.runLoop download_media upload_reel reels.length reels
                0 0 p0).processed])
          = successCount (RepostBot.runLoop download_media upload_reel reels.length reels
              0 0 p0).delta := by
        rw [successCount_append, successCount_append, successCount_save]
        have h1 : successCount [Event.sleep 2 5] = 0 := rfl
        rw [h1]
        omega
      rw [hsc]
      have hb := l3 (by unfold RepostBot.MAX_REPOSTS_PER_RUN; omega)
      constructor
      · omega
      · omega
  · intro download_media upload_reel total l i p
    cases l with
    | nil => rfl
    | cons r rest =>
      simp only [RepostBot.runLoop]
      rw [if_pos (le_refl _)]

theorem sepOk_save (ids : List String) : SepOk [Event.save ids] := rfl

theorem sepAny_single_sleep (lo hi : Nat) : SepAny [Event.sleep lo hi] := by
  intro f
  rfl

/-- C5: whichever way the run ends, the candidate loop completing, the
quota stopping it, or an injected error (a malformed thread aborting
the bot.py scan, a malformed item aborting repost_bot.py extraction),
the last observable event of the trace is the write of the final
processed set to the state file: process_dms_nuclear saves at line 402
after its catch-all except, and run saves on all of its exit paths
including the run-level exception handler. -/
theorem claim_C5_state_always_persisted :
    (∀ (brutal_repost : String → Bool) (threads : List Bot.ThreadEntry) (p0 : List String),
      (Bot.process_dms_nuclear brutal_repost threads p0).trace.getLast?
        = some (Event.save (Bot.process_dms_nuclear brutal_repost threads p0).processed)) ∧
    (∀ (download_media : String → Option String → Bool) (upload_reel : String → Bool)
      (get_media_info : String → Option RepostBot.MediaInfo)
      (shortcode_to_media_id : String → Option String)
      (threadsOpt : Option (List RepostBot.RThread)) (p0 : List String),
      (RepostBot.run download_media upload_reel get_media_info shortcode_to_media_id
          threadsOpt p0).trace.getLast?
        = some (Event.save (RepostBot.run download_media upload_reel get_media_info
            shortcode_to_media_id threadsOpt p0).processed)) := by
  constructor
  · intro brutal_repost threads p0
    rw [process_dms_elim]
    exact List.getLast?_concat _
  · intro download_media upload_reel get_media_info shortcode_to_media_id threadsOpt p0
    rcases run_elim download_media upload_reel get_media_info shortcode_to_media_id
        threadsOpt p0 with h | ⟨threads, reels, -, -, -, h⟩
    · rw [h]
      rfl
    · rw [h]
      exact List.getLast?_concat _

/-- C9: between any two successive repost attempts of a run, whether
the earlier one succeeded or failed, a randomized sleep occurs: in
bot.py human_delay runs after every attempt before the loop continues,
and in repost_bot.py download_media opens every attempt with
random_delay(2, 5), so the cadence check holds on every trace of
either model. -/
theorem claim_C9_sleep_between_attempts :
    (∀ (brutal_repost : String → Bool) (threads : List Bot.ThreadEntry) (p0 : List String),
      sleepBetweenAttempts (Bot.process_dms_nuclear brutal_repost threads p0).trace
        = true) ∧
    (∀ (download_media : String → Option String → Bool) (upload_reel : String → Bool)
      (get_media_info : String → Option RepostBot.MediaInfo)
      (shortcode_to_media_id : String → Option String)
      (threadsOpt : Option (List RepostBot.RThread)) (p0 : List String),
      sleepBetweenAttempts (RepostBot.run download_media upload_reel get_media_info
          shortcode_to_media_id threadsOpt p0).trace = true) := by
  constructor
  · intro brutal_repost threads p0
    obtain ⟨-, -, -, -, -, h6, -⟩ :=
      Bot.processThreads_props brutal_repost (threads.take 10) ⟨p0, 0⟩
    rw [process_dms_elim]
    have hall : SepOk ((Bot.processThreads brutal_repost (threads.take 10) ⟨p0, 0⟩).delta
        ++ [Event.save
          (Bot.processThreads brutal_repost (threads.take 10) ⟨p0, 0⟩).st.processed]) :=
      SepOk_append h6 (sepOk_save _)
    unfold SepOk at hall
    unfold sleepBetweenAttempts
    rw [hall]
  · intro download_media upload_reel get_media_info shortcode_to_media_id threadsOpt p0
    rcases run_elim download_media upload_reel get_media_info shortcode_to_media_id
        threadsOpt p0 with h | ⟨threads, reels, -, -, -, h⟩
    · rw [h]
      rfl
    · obtain ⟨-, -, -, -, -, -, i7, -, -⟩ :=
        RepostBot.runLoop_props download_media upload_reel reels.length reels 0 0 p0
      rw [h]
      exact sepAny_with_save (SepAny_append (sepAny_single_sleep 2 5) i7) _ true

/-- C10: a bot.py run only ever examines the first 10 threads and the
first 20 messages of each: the run on any inbox equals the run on the
input truncated to those caps, and any identifier newly present in the
processed set is the id of a message within the caps. -/
theorem claim_C10_hard_caps :
    (∀ (brutal_repost : String → Bool) (threads : List Bot.ThreadEntry) (p0 : List String),
      Bot.process_dms_nuclear brutal_repost threads p0
        = Bot.process_dms_nuclear brutal_repost (Bot.truncThreads threads) p0) ∧
    (∀ (brutal_repost : String → Bool) (threads : List Bot.ThreadEntry) (p0 : List String)
      (x : String),
      x ∈ (Bot.process_dms_nuclear brutal_repost threads p0).processed →
      x ∈ p0 ∨ ∃ t ∈ threads.take 10, some x ∈ Bot.threadMsgIds t) := by
  constructor
  · intro brutal_repost threads p0
    have hlen : (Bot.truncThreads threads).length ≤ 10 := by
      unfold Bot.truncThreads
      rw [List.length_map, List.length_take]
      exact min_le_left _ _
    rw [process_dms_elim, process_dms_elim, List.take_of_length_le hlen]
    unfold Bot.truncThreads
    rw [Bot.processThreads_map_trunc]
  · intro brutal_repost threads p0 x hx
    rw [process_dms_elim] at hx
    dsimp only at hx
    obtain ⟨-, -, -, -, -, -, h7⟩ :=
      Bot.processThreads_props brutal_repost (threads.take 10) ⟨p0, 0⟩
    rcases h7 x hx with h | ⟨t, ht, hid⟩
    · exact Or.inl h
    · exact Or.inr ⟨t, ht, hid⟩

/-- Concrete single-thread inbox used to instantiate the hard-cap
claim. -/
def c10Threads : List Bot.ThreadEntry :=
  [Bot.ThreadEntry.thread (some "t1")
    [Bot.MsgData.dict (some "m1") 1 Option.none Option.none]]

theorem claim_C10_hard_caps_witness :
    "m1" ∈ (Bot.process_dms_nuclear (fun _ => true) c10Threads []).processed ∧
    ("m1" ∈ ([] : List String) ∨ ∃ t ∈ c10Threads.take 10, some "m1" ∈ Bot.threadMsgIds t) :=
  ⟨by decide, claim_C10_hard_caps.2 (fun _ => true) c10Threads [] "m1" (by decide)⟩

/-- C6: when the persisted state file is missing, or its contents make
the JSON decoder raise, loading the processed set returns the empty
set without raising, in both load_processed_ids (repost_bot.py lines
71-78) and load_json (bot.py lines 137-143). -/
theorem claim_C6_corrupt_state_resilience :
    ∀ (jsonLoads : String → Option (List String)) (file : Option String) (s : String),
      (file = Option.none ∨ (file = some s ∧ jsonLoads s = Option.none)) →
      RepostBot.load_processed_ids jsonLoads file = [] ∧ load_json jsonLoads file = [] := by
  rintro jsonLoads file s (rfl | ⟨rfl, hj⟩)
  · exact ⟨rfl, rfl⟩
  · constructor
    · simp [RepostBot.load_processed_ids, hj]
    · simp [load_json, hj]

theorem claim_C6_corrupt_state_resilience_witness :
    RepostBot.load_processed_ids parseJsonStringArray (some "not json") = [] ∧
    load_json parseJsonStringArray (some "not json") = [] :=
  claim_C6_corrupt_state_resilience parseJsonStringArray (some "not json") "not json"
    (Or.inr ⟨rfl, by decide⟩)

/-- Index of the first attempt event for a given message identifier in
a trace (the trace length when there is none). -/
def idxOfAttempt (tr : List Event) (iid : String) : Nat :=
  tr.findIdx (fun e => match e with | Event.attempt i _ => i == iid | _ => false)

/-- Index of the first mark event for a given message identifier in a
trace (the trace length when there is none). -/
def idxOfMark (tr : List Event) (iid : String) : Nat :=
  tr.findIdx (fun e => match e with | Event.mark i => i == iid | _ => false)

/-- Oracle used in concrete runs: media_info resolves every id to a
video record with that id and no shortcode attribute. -/
def gMIc : String → Option RepostBot.MediaInfo := fun m => some ⟨m, 2, Option.none⟩

/-- Oracle used in concrete runs: shortcode resolution always fails. -/
def sTMIc : String → Option String := fun _ => Option.none

/-- Concrete single-candidate inbox: one thread with one media-share
message. -/
def c2Threads : List RepostBot.RThread :=
  [⟨some "t1",
    [RepostBot.RItem.item (some "i1") 10 (some ⟨some "M1", some "SC1", some 2⟩)
      Option.none Option.none Option.none]⟩]

/-- C2 counterexample: on a concrete run of repost_bot.py with one
candidate whose download and upload both succeed, the attempt event
strictly precedes the mark event for the candidate (index 2 versus
index 5 in the trace), so the identifier is not added to the processed
set before the download/upload is attempted as the claim states: the
code marks only after the attempt (repost_bot.py lines 694-710). -/
theorem claim_C2_counterexample :
    (¬ idxOfMark (RepostBot.run (fun _ _ => true) (fun _ => true) gMIc sTMIc
        (some c2Threads) []).trace "i1"
      < idxOfAttempt (RepostBot.run (fun _ _ => true) (fun _ => true) gMIc sTMIc
        (some c2Threads) []).trace "i1") ∧
    idxOfAttempt (RepostBot.run (fun _ _ => true) (fun _ => true) gMIc sTMIc
        (some c2Threads) []).trace "i1"
      < idxOfMark (RepostBot.run (fun _ _ => true) (fun _ => true) gMIc sTMIc
        (some c2Threads) []).trace "i1" ∧
    idxOfMark (RepostBot.run (fun _ _ => true) (fun _ => true) gMIc sTMIc
        (some c2Threads) []).trace "i1"
      < (RepostBot.run (fun _ _ => true) (fun _ => true) gMIc sTMIc
        (some c2Threads) []).trace.length := by
  decide

/-- C2 (amended): the message identifier of every candidate the
scheduler attempts is added to the processed set immediately after the
attempt completes, not before it, and unconditionally, so it is in the
processed set after the run whether or not the repost succeeded (the
Media Fetcher failing deterministically included, since the oracles
are arbitrary), and a candidate whose identifier is already in the
carried-over set is never attempted again in a subsequent run.  Both
models. -/
theorem claim_C2_amended :
    (∀ (download_media : String → Option String → Bool) (upload_reel : String → Bool)
      (get_media_info : String → Option RepostBot.MediaInfo)
      (shortcode_to_media_id : String → Option String)
      (threadsOpt : Option (List RepostBot.RThread)) (p0 : List String) (i u : String),
      Event.attempt i u ∈ (RepostBot.run download_media upload_reel get_media_info
          shortcode_to_media_id threadsOpt p0).trace →
      i ∈ (RepostBot.run download_media upload_reel get_media_info
          shortcode_to_media_id threadsOpt p0).processed) ∧
    (∀ (download_media : String → Option String → Bool) (upload_reel : String → Bool)
      (get_media_info : String → Option RepostBot.MediaInfo)
      (shortcode_to_media_id : String → Option String)
      (threadsOpt : Option (List RepostBot.RThread)) (p0 : List String) (i u : String),
      i ∈ p0 →
      Event.attempt i u ∉ (RepostBot.run download_media upload_reel get_media_info
          shortcode_to_media_id threadsOpt p0).trace) ∧
    (∀ (brutal_repost : String → Bool) (threads : List Bot.ThreadEntry)
      (p0 : List String) (i u : String),
      Event.attempt i u ∈ (Bot.process_dms_nuclear brutal_repost threads p0).trace →
      i ∈ (Bot.process_dms_nuclear brutal_repost threads p0).processed) ∧
    (∀ (brutal_repost : String → Bool) (threads : List Bot.ThreadEntry)
      (p0 : List String) (i u : String),
      i ∈ p0 →
      Event.attempt i u ∉ (Bot.process_dms_nuclear brutal_repost threads p0).trace) := by
  refine ⟨?_, ?_, ?_, ?_⟩
  · intro download_media upload_reel get_media_info shortcode_to_media_id threadsOpt p0 i u
    intro hi
    rcases run_elim download_media upload_reel get_media_info shortcode_to_media_id
        threadsOpt p0 with h | ⟨threads, reels, -, -, -, h⟩
    · rw [h] at hi
      simp at hi
    · rw [h] at hi ⊢
      obtain ⟨-, -, -, i4, -, -, -, -, -⟩ :=
        RepostBot.runLoop_props download_media upload_reel reels.length reels 0 0 p0
      dsimp only at hi ⊢
      rcases List.mem_append.1 hi with hi | hi
      · rcases List.mem_append.1 hi with hi | hi
        · simp at hi
        · exact i4 i u hi
      · simp at hi
  · intro download_media upload_reel get_media_info shortcode_to_media_id threadsOpt p0 i u
    intro hin hi
    rcases run_elim download_media upload_reel get_media_info shortcode_to_media_id
        threadsOpt p0 with h | ⟨threads, reels, -, hfr, -, h⟩
    · rw [h] at hi
      simp at hi
    · rw [h] at hi
      obtain ⟨-, -, -, -, i5, -, -, -, -⟩ :=
        RepostBot.runLoop_props download_media upload_reel reels.length reels 0 0 p0
      dsimp only at hi
      rcases List.mem_append.1 hi with hi | hi
      · rcases List.mem_append.1 hi with hi | hi
        · simp at hi
        · obtain ⟨r, hr, hrid⟩ := i5 i u hi
          obtain ⟨l0, hitems, hsort⟩ := RepostBot.find_reels_ok_elim hfr
          have hr0 : r ∈ l0 := by
            rw [hsort] at hr
            exact (RepostBot.sortReels_perm l0).mem_iff.1 hr
          have hnp := RepostBot.findReelsItems_not_processed get_media_info
            shortcode_to_media_id p0 _ l0 hitems r hr0
          rw [hrid] at hnp
          exact hnp hin
      · simp at hi
  · intro brutal_repost threads p0 i u hi
    rw [process_dms_elim] at hi ⊢
    obtain ⟨-, -, -, h4, -, -, -⟩ :=
      Bot.processThreads_props brutal_repost (threads.take 10) ⟨p0, 0⟩
    dsimp only at hi ⊢
    rcases List.mem_append.1 hi with hi | hi
    · exact h4 i u hi
    · simp at hi
  · intro brutal_repost threads p0 i u hin hi
    rw [process_dms_elim] at hi
    obtain ⟨-, -, -, -, h5, -, -⟩ :=
      Bot.processThreads_props brutal_repost (threads.take 10) ⟨p0, 0⟩
    dsimp only at hi
    rcases List.mem_append.1 hi with hi | hi
    · exact h5 i u hin hi
    · simp at hi

theorem claim_C2_amended_witness :
    "i1" ∈ (RepostBot.run (fun _ _ => true) (fun _ => true) gMIc sTMIc
        (some c2Threads) []).processed :=
  claim_C2_amended.1 (fun _ _ => true) (fun _ => true) gMIc sTMIc
    (some c2Threads) [] "i1" "M1" (by decide)

theorem stepMsg_text_url {brutal_repost : String → Bool} {itemId : Option String}
    {ts : Int} {textS u : String} {ms : Option Bot.AMediaShare} {st : Bot.BotSt}
    (hre : reelRegexSearch textS = some u) (hmem : itemId.getD "" ∉ st.processed) :
    Bot.stepMsg brutal_repost (Bot.MsgData.dict itemId ts (some textS) ms) st
      = Bot.attemptStep (brutal_repost u) (itemId.getD "") u st := by
  have hne : textS ≠ "" := by
    intro he
    rw [he] at hre
    have h0 : reelRegexSearch "" = Option.none := rfl
    rw [h0] at hre
    cases hre
  have htx : (textS != "") = true := by
    simpa using hne
  unfold Bot.stepMsg
  dsimp only
  simp only [Option.getD_some]
  rw [if_neg hmem, htx, if_pos rfl, hre]

theorem processMsgs_single_cont {brutal_repost : String → Bool} {m : Bot.MsgData}
    {st st1 : Bot.BotSt} {d : List Event} (hq : st.reposts < MAX_REPOSTS)
    (h : Bot.stepMsg brutal_repost m st = Bot.StepRes.cont st1 d) :
    Bot.processMsgs brutal_repost [m] st = ⟨st1, d, false⟩ := by
  simp only [Bot.processMsgs]
  rw [if_neg (not_le.mpr hq), h]
  simp [Bot.processMsgs]

/-- Concrete bot.py inbox: one message carrying both a structured
media_share reference (code BBB) and an Instagram reel URL in its free
text. -/
def c3Threads : List Bot.ThreadEntry :=
  [Bot.ThreadEntry.thread (some "t1")
    [Bot.MsgData.dict (some "m1") 5 (some "see https://www.instagram.com/reel/AAA/")
      (some ⟨some "BBB"⟩)]]

/-- C3 counterexample: bot.py processes a message carrying both a
media_share with code BBB and a reel URL in its text by reposting from
the text URL (the text check at line 363 runs first and continues):
the trace holds exactly one attempt, on the text URL, and no attempt
on the URL the media_share code would produce.  The claim states the
candidate is derived from the structured media reference, which is
false here. -/
theorem claim_C3_counterexample :
    (Bot.process_dms_nuclear (fun _ => true) c3Threads []).trace
      = [Event.attempt "m1" "https://www.instagram.com/reel/AAA/", Event.success "m1",
         Event.mark "m1", Event.sleep 3 6, Event.save ["m1"]] ∧
    Event.attempt "m1" "https://www.instagram.com/p/BBB/"
      ∉ (Bot.process_dms_nuclear (fun _ => true) c3Threads []).trace := by
  decide

/-- C3 (amended): a message carrying both a structured media reference
and a platform URL in its free text produces exactly one candidate in
both scripts, but the source of the candidate differs: in bot.py the
free-text URL check runs first, so the single attempt uses the text
URL and the media_share is ignored; in repost_bot.py the extractor
never scans free text, so the single candidate is built from the
media_share fields (id verified through media_info), independently of
the text. -/
theorem claim_C3_amended :
    (∀ (brutal_repost : String → Bool) (itemId : Option String) (ts : Int)
      (textS u : String) (ms : Bot.AMediaShare) (p : List String) (c : Nat),
      reelRegexSearch textS = some u →
      itemId.getD "" ∉ p →
      c < MAX_REPOSTS →
      (Bot.processMsgs brutal_repost
          [Bot.MsgData.dict itemId ts (some textS) (some ms)] ⟨p, c⟩).delta
        = [Event.attempt (itemId.getD "") u]
          ++ (if brutal_repost u then [Event.success (itemId.getD "")] else [])
          ++ [Event.mark (itemId.getD ""), Event.sleep 3 6]) ∧
    (∀ (get_media_info : String → Option RepostBot.MediaInfo)
      (shortcode_to_media_id : String → Option String) (p : List String)
      (iid : String) (ts : Int) (ms : RepostBot.RMediaShare) (text : Option String)
      (u : String) (mi : RepostBot.MediaInfo),
      reelRegexSearch (text.getD "") = some u →
      pyTruthyOpt ms.id = true →
      get_media_info (ms.id.getD "") = some mi →
      iid ≠ "" →
      iid ∉ p →
      RepostBot.findReelsItems get_media_info shortcode_to_media_id p
          [RepostBot.RItem.item (some iid) ts (some ms) Option.none Option.none text]
        = Except.ok [⟨iid, mi.id, mi.media_type, "media_share", ts,
            (match mi.code with | some c => some c | Option.none => ms.code)⟩]) := by
  constructor
  · intro brutal_repost itemId ts textS u ms p c hre hmem hc
    have hstep := @stepMsg_text_url brutal_repost itemId ts textS u (some ms) ⟨p, c⟩
      hre hmem
    rw [processMsgs_single_cont hc hstep]
  · intro get_media_info shortcode_to_media_id p iid ts ms text u mi hre hid hg hne hmem
    have h1 : pyTruthyOpt (some iid) = true := by
      simpa [pyTruthyOpt] using hne
    simp only [RepostBot.findReelsItems]
    rw [if_pos h1]
    simp only [Option.getD_some]
    rw [if_neg hmem]
    have hext : RepostBot.extractItem get_media_info shortcode_to_media_id iid ts
        (some ms) Option.none Option.none
        = some ⟨iid, mi.id, mi.media_type, "media_share", ts,
            (match mi.code with | some c => some c | Option.none => ms.code)⟩ := by
      unfold RepostBot.extractItem RepostBot.verifyReel
      dsimp only
      rw [if_pos hid]
      rw [hg]
    rw [hext]
    rfl

theorem claim_C3_amended_witness :
    ((Bot.processMsgs (fun _ => true)
        [Bot.MsgData.dict (some "m1") 5 (some "see https://www.instagram.com/reel/AAA/")
          (some ⟨some "BBB"⟩)] ⟨[], 0⟩).delta
      = [Event.attempt "m1" "https://www.instagram.com/reel/AAA/"]
        ++ (if (fun _ => true) "https://www.instagram.com/reel/AAA/"
              then [Event.success "m1"] else [])
        ++ [Event.mark "m1", Event.sleep 3 6]) ∧
    (RepostBot.findReelsItems gMIc sTMIc []
        [RepostBot.RItem.item (some "i1") 7 (some ⟨some "M1", some "SC1", some 2⟩)
          Option.none Option.none (some "see https://www.instagram.com/reel/AAA/")]
      = Except.ok [⟨"i1", "M1", 2, "media_share", 7,
          (match (Option.none : Option String) with
           | some c => some c
           | Option.none => some "SC1")⟩]) :=
  ⟨claim_C3_amended.1 (fun _ => true) (some "m1") 5
      "see https://www.instagram.com/reel/AAA/" "https://www.instagram.com/reel/AAA/"
      ⟨some "BBB"⟩ [] 0 (by decide) (by decide) (by decide),
   claim_C3_amended.2 gMIc sTMIc [] "i1" 7 ⟨some "M1", some "SC1", some 2⟩
      (some "see https://www.instagram.com/reel/AAA/")
      "https://www.instagram.com/reel/AAA/" ⟨"M1", 2, Option.none⟩
      (by decide) (by decide) rfl (by decide) (by decide)⟩

/-- Concrete bot.py inbox: one thread with six media-share messages in
oldest-first order, timestamps 1 to 6, all repostable and all reposts
succeeding. -/
def c4Threads : List Bot.ThreadEntry :=
  [Bot.ThreadEntry.thread (some "t1")
    [Bot.MsgData.dict (some "m1") 1 Option.none (some ⟨some "C1"⟩),
     Bot.MsgData.dict (some "m2") 2 Option.none (some ⟨some "C2"⟩),
     Bot.MsgData.dict (some "m3") 3 Option.none (some ⟨some "C3"⟩),
     Bot.MsgData.dict (some "m4") 4 Option.none (some ⟨some "C4"⟩),
     Bot.MsgData.dict (some "m5") 5 Option.none (some ⟨some "C5"⟩),
     Bot.MsgData.dict (some "m6") 6 Option.none (some ⟨some "C6"⟩)]] 

/-- C4 counterexample: bot.py never consults timestamps and never
sorts; on six candidates with distinct timestamps 1..6 arriving
oldest-first and quota 5, the run attempts the five oldest (m1..m5)
and never touches the most recent message m6, while the claim says
the attempted set is exactly the five most recent (m2..m6). -/
theorem claim_C4_counterexample :
    (Bot.process_dms_nuclear (fun _ => true) c4Threads []).reposts = 5 ∧
    Event.attempt "m1" "https://www.instagram.com/p/C1/"
      ∈ (Bot.process_dms_nuclear (fun _ => true) c4Threads []).trace ∧
    Event.attempt "m6" "https://www.instagram.com/p/C6/"
      ∉ (Bot.process_dms_nuclear (fun _ => true) c4Threads []).trace ∧
    Event.mark "m6" ∉ (Bot.process_dms_nuclear (fun _ => true) c4Threads []).trace := by
  decide

/-- C4 (amended): only repost_bot.py orders candidates: its extractor
sorts them newest-first by timestamp, and when every download and
upload succeeds the per-reel loop attempts exactly the
MAX_REPOSTS_PER_RUN most recent candidates of a list with distinct
timestamps longer than the quota.  bot.py processes messages in the
order the API returns them and ignores timestamps entirely, and with
failing attempts the visited set can extend past the quota prefix, so
the claim holds only in this restricted form. -/
theorem claim_C4_amended :
    ∀ (download_media : String → Option String → Bool) (upload_reel : String → Bool)
      (rs : List RepostBot.Reel) (p0 : List String),
      (rs.map RepostBot.Reel.timestamp).Nodup →
      RepostBot.MAX_REPOSTS_PER_RUN < rs.length →
      (∀ r ∈ rs, download_media r.media_id r.shortcode = true
        ∧ upload_reel r.media_id = true) →
      (RepostBot.runLoop download_media upload_reel (RepostBot.sortReels rs).length
          (RepostBot.sortReels rs) 0 0 p0).visited
        = (RepostBot.sortReels rs).take RepostBot.MAX_REPOSTS_PER_RUN ∧
      (RepostBot.runLoop download_media upload_reel (RepostBot.sortReels rs).length
          (RepostBot.sortReels rs) 0 0 p0).visited.length
        = RepostBot.MAX_REPOSTS_PER_RUN ∧
      (∀ a ∈ (RepostBot.runLoop download_media upload_reel
          (RepostBot.sortReels rs).length (RepostBot.sortReels rs) 0 0 p0).visited,
        ∀ b ∈ rs,
          b ∉ (RepostBot.runLoop download_media upload_reel
            (RepostBot.sortReels rs).length (RepostBot.sortReels rs) 0 0 p0).visited →
          b.timestamp < a.timestamp) := by
  intro download_media upload_reel rs p0 hnd hlen hsucc
  have hperm : (RepostBot.sortReels rs).Perm rs := RepostBot.sortReels_perm rs
  have hsucc2 : ∀ r ∈ RepostBot.sortReels rs,
      download_media r.media_id r.shortcode = true ∧ upload_reel r.media_id = true :=
    fun r hr => hsucc r (hperm.mem_iff.mp hr)
  have hvis := RepostBot.runLoop_visited_all_success download_media upload_reel
    (RepostBot.sortReels rs).length (RepostBot.sortReels rs) hsucc2 0 0 p0
  rw [Nat.sub_zero] at hvis
  refine ⟨hvis, ?_, ?_⟩
  · rw [hvis, List.length_take, hperm.length_eq]
    exact min_eq_left (le_of_lt hlen)
  · intro a ha b hb hbn
    rw [hvis] at ha hbn
    have hbs : b ∈ RepostBot.sortReels rs := hperm.mem_iff.mpr hb
    have hsplit := List.take_append_drop RepostBot.MAX_REPOSTS_PER_RUN
      (RepostBot.sortReels rs)
    have hbd : b ∈ (RepostBot.sortReels rs).drop RepostBot.MAX_REPOSTS_PER_RUN := by
      rw [← hsplit] at hbs
      rcases List.mem_append.1 hbs with h | h
      · exact absurd h hbn
      · exact h
    have hsorted : List.Pairwise RepostBot.reelGE (RepostBot.sortReels rs) :=
      RepostBot.sortReels_sorted rs
    have hnds : ((RepostBot.sortReels rs).map RepostBot.Reel.timestamp).Nodup :=
      ((hperm.map RepostBot.Reel.timestamp).nodup_iff).mpr hnd
    have hpne : (RepostBot.sortReels rs).Pairwise
        (fun a b => a.timestamp ≠ b.timestamp) := List.pairwise_map.mp hnds
    have hcomb := hsorted.and hpne
    rw [← hsplit] at hcomb
    have h3 := (List.pairwise_append.1 hcomb).2.2 a ha b hbd
    exact lt_of_le_of_ne h3.1 (Ne.symm h3.2)

/-- Concrete unsorted candidate list with distinct timestamps used to
instantiate the ordering claim. -/
def c4Reels : List RepostBot.Reel :=
  [⟨"i1", "M1", 2, "media_share", 2, Option.none⟩,
   ⟨"i2", "M2", 2, "media_share", 4, Option.none⟩,
   ⟨"i3", "M3", 2, "media_share", 1, Option.none⟩,
   ⟨"i4", "M4", 2, "media_share", 3, Option.none⟩]

theorem claim_C4_amended_witness :
    (RepostBot.runLoop (fun _ _ => true) (fun _ => true)
        (RepostBot.sortReels c4Reels).length (RepostBot.sortReels c4Reels) 0 0 []).visited
      = (RepostBot.sortReels c4Reels).take RepostBot.MAX_REPOSTS_PER_RUN ∧
    (RepostBot.runLoop (fun _ _ => true) (fun _ => true)
        (RepostBot.sortReels c4Reels).length (RepostBot.sortReels c4Reels) 0 0
        []).visited.length = RepostBot.MAX_REPOSTS_PER_RUN ∧
    (∀ a ∈ (RepostBot.runLoop (fun _ _ => true) (fun _ => true)
        (RepostBot.sortReels c4Reels).length (RepostBot.sortReels c4Reels) 0 0 []).visited,
      ∀ b ∈ c4Reels,
        b ∉ (RepostBot.runLoop (fun _ _ => true) (fun _ => true)
          (RepostBot.sortReels c4Reels).length (RepostBot.sortReels c4Reels) 0 0
          []).visited →
        b.timestamp < a.timestamp) :=
  claim_C4_amended (fun _ _ => true) (fun _ => true) c4Reels []
    (by decide) (by decide) (by decide)

/-- Concrete repost_bot.py inbox: one thread holding a well-formed
media-share candidate followed by a structurally anomalous non-dict
item. -/
def c7Threads : List RepostBot.RThread :=
  [⟨some "t1",
    [RepostBot.RItem.item (some "i1") 10 (some ⟨some "M1", some "SC1", some 2⟩)
      Option.none Option.none Option.none,
     RepostBot.RItem.malformed]⟩]

/-- The same inbox without the anomalous item. -/
def c7ThreadsGood : List RepostBot.RThread :=
  [⟨some "t1",
    [RepostBot.RItem.item (some "i1") 10 (some ⟨some "M1", some "SC1", some 2⟩)
      Option.none Option.none Option.none]⟩]

/-- C7 counterexample: in repost_bot.py there is no per-candidate
catch; one structurally anomalous item makes find_reels_in_messages
raise, the run-level handler saves and the run ends with zero
attempts, so the well-formed candidate sitting next to the malformed
item is never attempted, while the claim says the loop continues with
the remaining candidates.  Without the malformed item the same
candidate is attempted. -/
theorem claim_C7_counterexample :
    RepostBot.run (fun _ _ => true) (fun _ => true) gMIc sTMIc (some c7Threads) []
      = ⟨[], 0, [Event.sleep 2 5, Event.save []]⟩ ∧
    Event.attempt "i1" "M1"
      ∉ (RepostBot.run (fun _ _ => true) (fun _ => true) gMIc sTMIc
          (some c7Threads) []).trace ∧
    Event.attempt "i1" "M1"
      ∈ (RepostBot.run (fun _ _ => true) (fun _ => true) gMIc sTMIc
          (some c7ThreadsGood) []).trace := by
  decide

/-- C7 (amended): the two scripts catch structural anomalies at
different boundaries, and neither continues with the remaining
candidates of the batch.  In bot.py the catch is per thread: a
malformed message makes the rest of that thread be skipped unmarked,
while the remaining threads are processed from the state reached so
far and the run continues.  In repost_bot.py an anomaly during
extraction propagates to the run-level handler: no candidate of the
batch is attempted at all, and the run still persists its state and
exits cleanly rather than crashing. -/
theorem claim_C7_amended :
    (∀ (brutal_repost : String → Bool) (tid : Option String) (rest : List Bot.MsgData)
      (ts : List Bot.ThreadEntry) (st : Bot.BotSt),
      pyTruthyOpt tid = true →
      st.reposts < MAX_REPOSTS →
      Bot.processThreads brutal_repost
          (Bot.ThreadEntry.thread tid (Bot.MsgData.malformed :: rest) :: ts) st
        = Bot.processThreads brutal_repost ts st) ∧
    (∀ (download_media : String → Option String → Bool) (upload_reel : String → Bool)
      (get_media_info : String → Option RepostBot.MediaInfo)
      (shortcode_to_media_id : String → Option String)
      (threads : List RepostBot.RThread) (p0 : List String),
      (∃ t ∈ threads, RepostBot.RItem.malformed ∈ t.items) →
      RepostBot.run download_media upload_reel get_media_info shortcode_to_media_id
          (some threads) p0
        = ⟨p0, 0, [Event.sleep 2 5, Event.save p0]⟩) := by
  constructor
  · intro brutal_repost tid rest ts st h1 h2
    have hmsgs : Bot.processMsgs brutal_repost ((Bot.MsgData.malformed :: rest).take 20) st
        = ⟨st, [], true⟩ := by
      have ht : (Bot.MsgData.malformed :: rest).take 20
          = Bot.MsgData.malformed :: rest.take 19 := rfl
      rw [ht]
      simp only [Bot.processMsgs]
      rw [if_neg (not_le.mpr h2)]
      rfl
    simp only [Bot.processThreads]
    rw [if_neg (not_le.mpr h2), if_pos h1, hmsgs]
    simp
  · intro download_media upload_reel get_media_info shortcode_to_media_id threads p0 hex
    obtain ⟨t, ht, hm⟩ := hex
    have hmm : RepostBot.RItem.malformed ∈ threads.flatMap RepostBot.RThread.items :=
      List.mem_flatMap.2 ⟨t, ht, hm⟩
    have hfr : RepostBot.find_reels_in_messages get_media_info shortcode_to_media_id
        p0 threads = Except.error () := by
      unfold RepostBot.find_reels_in_messages
      rw [RepostBot.findReelsItems_error_of_malformed get_media_info
        shortcode_to_media_id p0 _ hmm]
      rfl
    have hemp : threads.isEmpty = false := by
      cases threads with
      | nil => cases ht
      | cons a as => rfl
    unfold RepostBot.run
    dsimp only
    rw [if_neg (by rw [hemp]; exact Bool.false_ne_true), hfr]
    rfl

theorem claim_C7_amended_witness :
    (Bot.processThreads (fun _ => true)
        [Bot.ThreadEntry.thread (some "t1")
          [Bot.MsgData.malformed,
           Bot.MsgData.dict (some "m2") 2 Option.none (some ⟨some "C2"⟩)],
         Bot.ThreadEntry.thread (some "t2")
          [Bot.MsgData.dict (some "m3") 3 Option.none (some ⟨some "C3"⟩)]] ⟨[], 0⟩
      = Bot.processThreads (fun _ => true)
          [Bot.ThreadEntry.thread (some "t2")
            [Bot.MsgData.dict (some "m3") 3 Option.none (some ⟨some "C3"⟩)]] ⟨[], 0⟩) ∧
    RepostBot.run (fun _ _ => true) (fun _ => true) gMIc sTMIc (some c7Threads) []
      = ⟨[], 0, [Event.sleep 2 5, Event.save []]⟩ :=
  ⟨claim_C7_amended.1 (fun _ => true) (some "t1")
      [Bot.MsgData.dict (some "m2") 2 Option.none (some ⟨some "C2"⟩)]
      [Bot.ThreadEntry.thread (some "t2")
        [Bot.MsgData.dict (some "m3") 3 Option.none (some ⟨some "C3"⟩)]] ⟨[], 0⟩
      (by decide) (by decide),
   claim_C7_amended.2 (fun _ _ => true) (fun _ => true) gMIc sTMIc c7Threads []
     ⟨⟨some "t1",
        [RepostBot.RItem.item (some "i1") 10 (some ⟨some "M1", some "SC1", some 2⟩)
          Option.none Option.none Option.none,
         RepostBot.RItem.malformed]⟩,
      List.mem_cons_self _ _,
      List.mem_cons_of_mem _ (List.mem_cons_self _ _)⟩⟩

/-- Concrete repost_bot.py inbox with four media-share candidates,
timestamps 1..4, all downloads and uploads succeeding: one more
candidate than the quota of 3. -/
def c8Threads : List RepostBot.RThread :=
  [⟨some "t1",
    [RepostBot.RItem.item (some "i1") 1 (some ⟨some "M1", some "C1", some 2⟩)
      Option.none Option.none Option.none,
     RepostBot.RItem.item (some "i2") 2 (some ⟨some "M2", some "C2", some 2⟩)
      Option.none Option.none Option.none,
     RepostBot.RItem.item (some "i3") 3 (some ⟨some "M3", some "C3", some 2⟩)
      Option.none Option.none Option.none,
     RepostBot.RItem.item (some "i4") 4 (some ⟨some "M4", some "C4", some 2⟩)
      Option.none Option.none Option.none]⟩]

/-- C8 counterexample: with four candidates and quota 3, the first run
reposts the three most recent and stops at the quota before visiting
the oldest candidate, which is therefore not marked; rerunning the
same fixed batch with the carried-over processed set performs one
additional repost, not zero as the claim states. -/
theorem claim_C8_counterexample :
    (RepostBot.run (fun _ _ => true) (fun _ => true) gMIc sTMIc
        (some c8Threads) []).count = 3 ∧
    (RepostBot.run (fun _ _ => true) (fun _ => true) gMIc sTMIc (some c8Threads)
        (RepostBot.run (fun _ _ => true) (fun _ => true) gMIc sTMIc
          (some c8Threads) []).processed).count = 1 := by
  decide

/-- C8 (amended): rerunning the same fixed batch with the processed
set carried over performs zero additional reposts provided the first
run did not stop early at the quota (its successful-repost count is
below MAX_REPOSTS_PER_RUN, so every candidate was visited and marked,
and every identifier handled in the first run is skipped by the
second).  When the quota truncated the first run, candidates it never
visited are unmarked and can be reposted by the second run. -/
theorem claim_C8_amended :
    ∀ (download_media : String → Option String → Bool) (upload_reel : String → Bool)
      (get_media_info : String → Option RepostBot.MediaInfo)
      (shortcode_to_media_id : String → Option String)
      (threads : List RepostBot.RThread) (p0 : List String),
      (RepostBot.run download_media upload_reel get_media_info shortcode_to_media_id
          (some threads) p0).count < RepostBot.MAX_REPOSTS_PER_RUN →
      (RepostBot.run download_media upload_reel get_media_info shortcode_to_media_id
          (some threads)
          (RepostBot.run download_media upload_reel get_media_info shortcode_to_media_id
            (some threads) p0).processed).count = 0 := by
  intro download_media upload_reel get_media_info shortcode_to_media_id threads p0 h1
  rcases run_elim download_media upload_reel get_media_info shortcode_to_media_id
      (some threads) p0 with h | ⟨threads2, reels, heq, hfr, hne, h⟩
  · rw [h]
    dsimp only
    rw [h]
  · obtain rfl : threads = threads2 := Option.some.inj heq
    rw [h] at h1
    dsimp only at h1
    obtain ⟨l0, hitems, hsort⟩ := RepostBot.find_reels_ok_elim hfr
    obtain ⟨lmono, -, -, -, -, lmarked, -, -, lvisall⟩ :=
      RepostBot.runLoop_props download_media upload_reel reels.length reels 0 0 p0
    have hall : ∀ r ∈ l0, r.item_id
        ∈ (RepostBot.runLoop download_media upload_reel reels.length reels 0 0
            p0).processed := by
      intro r hr
      have hrs : r ∈ reels := by
        rw [hsort]
        exact (RepostBot.sortReels_perm l0).mem_iff.mpr hr
      exact lmarked r (lvisall h1 r hrs)
    have hskip := RepostBot.findReelsItems_skip get_media_info shortcode_to_media_id
      lmono _ l0 hitems hall
    have hfr2 : RepostBot.find_reels_in_messages get_media_info shortcode_to_media_id
        (RepostBot.runLoop download_media upload_reel reels.length reels 0 0 p0).processed
        threads = Except.ok [] := by
      unfold RepostBot.find_reels_in_messages
      rw [hskip]
      rfl
    have hemp : threads.isEmpty = false := by
      cases hthreads : threads with
      | nil =>
        rw [hthreads] at hfr
        have h0 : RepostBot.find_reels_in_messages get_media_info shortcode_to_media_id
            p0 [] = Except.ok [] := rfl
        rw [h0] at hfr
        exact absurd (Except.ok.inj hfr).symm hne
      | cons a as => rfl
    rw [h]
    dsimp only
    unfold RepostBot.run
    dsimp only
    rw [if_neg (by rw [hemp]; exact Bool.false_ne_true), hfr2]
    rfl

theorem claim_C8_amended_witness :
    (RepostBot.run (fun _ _ => true) (fun _ => true) gMIc sTMIc (some c2Threads)
        (RepostBot.run (fun _ _ => true) (fun _ => true) gMIc sTMIc
          (some c2Threads) []).processed).count = 0 :=
  claim_C8_amended (fun _ _ => true) (fun _ => true) gMIc sTMIc c2Threads []
    (by decide)
